import Mathlib

/-!
Verification of the bot-verification subsystem of `auth-api`:
the Turnstile verifier (`src/lib/turnstile.ts`), the gate middleware
(`src/middleware/turnstile.ts`) and the typed cache wrapper
(`src/lib/cache.ts`), shallowly embedded in Lean.

External collaborators (the Redis-compatible store, the remote Turnstile
API, `JSON.stringify`/`JSON.parse`, `createHash("sha256")`) are modelled
explicitly: the store as an association list plus injectable faults, the
remote API as an outcome parameter, JSON as a concrete serializer/parser
over a first-order JSON value type (numbers modelled as integers;
floating point is out of scope), and the hash as an abstract
`String → String` parameter.
-/

namespace AuthApi

/-! ## JSON values

Model of the JavaScript JSON data accepted by `JSON.stringify` /
`JSON.parse` as used by `cache.ts`.  Numbers are modelled as integers.
A mutual inductive is used instead of nested `List` to keep recursion
and induction structural. -/

mutual

inductive Json where
  | null : Json
  | bool (b : Bool) : Json
  | num (n : Int) : Json
  | str (s : String) : Json
  | arr (xs : JsonList) : Json
  | obj (ms : JsonMems) : Json

inductive JsonList where
  | nil : JsonList
  | cons (hd : Json) (tl : JsonList) : JsonList

inductive JsonMems where
  | nil : JsonMems
  | cons (k : String) (v : Json) (tl : JsonMems) : JsonMems

end

deriving instance DecidableEq for Json, JsonList, JsonMems

/-- Character constants, by code point. -/
def cQuote : Char := Char.ofNat 34

def cBackslash : Char := Char.ofNat 92

def cLBrace : Char := Char.ofNat 123

def cRBrace : Char := Char.ofNat 125

def cNewline : Char := Char.ofNat 10

def cTab : Char := Char.ofNat 9

def cCR : Char := Char.ofNat 13

/-- Decimal digit character for `d < 10`. -/
def digitChar (d : Nat) : Char :=
  match d with
  | 0 => '0' | 1 => '1' | 2 => '2' | 3 => '3' | 4 => '4'
  | 5 => '5' | 6 => '6' | 7 => '7' | 8 => '8' | _ => '9'

def isDigitC (c : Char) : Bool := 48 ≤ c.toNat && c.toNat ≤ 57

def digitVal (c : Char) : Nat := c.toNat - 48

/-- Decimal digits of `n`, most significant first, prepended to `acc`. -/
def natCharsAux (n : Nat) (acc : List Char) : List Char :=
  if h : n < 10 then digitChar n :: acc
  else natCharsAux (n / 10) (digitChar (n % 10) :: acc)
  termination_by n
  decreasing_by exact Nat.div_lt_self (by omega) (by omega)

def natChars (n : Nat) : List Char := natCharsAux n []

def intChars : Int → List Char
  | .ofNat n => natChars n
  | .negSucc m => '-' :: natChars (m + 1)

/-- JSON string escaping of one character (the fragment emitted by
`JSON.stringify` for the characters we model). -/
def escChar (c : Char) : List Char :=
  if c = cQuote then [cBackslash, cQuote]
  else if c = cBackslash then [cBackslash, cBackslash]
  else if c = cNewline then [cBackslash, 'n']
  else if c = cTab then [cBackslash, 't']
  else if c = cCR then [cBackslash, 'r']
  else [c]

def escBody : List Char → List Char
  | [] => []
  | c :: cs => escChar c ++ escBody cs

/-- A JSON string literal: quote, escaped body, quote. -/
def strLitChars (s : String) : List Char :=
  cQuote :: (escBody s.data ++ [cQuote])

/-- The characters of a keyword literal. -/
def jstr (w : String) : List Char := w.data

mutual

/-- Characters emitted by `JSON.stringify` for a JSON value. -/
def jsonChars : Json → List Char
  | .null => jstr "null"
  | .bool true => jstr "true"
  | .bool false => jstr "false"
  | .num n => intChars n
  | .str s => strLitChars s
  | .arr xs => '[' :: (arrChars xs ++ [']'])
  | .obj ms => cLBrace :: (memChars ms ++ [cRBrace])

/-- Comma-separated array elements. -/
def arrChars : JsonList → List Char
  | .nil => []
  | .cons h .nil => jsonChars h
  | .cons h (.cons h2 t) => jsonChars h ++ ',' :: arrChars (.cons h2 t)

/-- Comma-separated object members. -/
def memChars : JsonMems → List Char
  | .nil => []
  | .cons k v .nil => strLitChars k ++ ':' :: jsonChars v
  | .cons k v (.cons k2 v2 t) =>
      strLitChars k ++ ':' :: jsonChars v ++ ',' :: memChars (.cons k2 v2 t)

end

/-- Model of `JSON.stringify`. -/
def jsonStringify (v : Json) : String := String.mk (jsonChars v)

/-- Greedy decimal-digit scan with accumulator. -/
def pDigits (acc : Nat) : List Char → Nat × List Char
  | [] => (acc, [])
  | c :: cs =>
      if isDigitC c then pDigits (acc * 10 + digitVal c) cs
      else (acc, c :: cs)

/-- Unescape one escaped character of a JSON string body. -/
def unescChar (c : Char) : Option Char :=
  if c = cQuote then some cQuote
  else if c = cBackslash then some cBackslash
  else if c = 'n' then some cNewline
  else if c = 't' then some cTab
  else if c = 'r' then some cCR
  else none

/-- Parse a JSON string body after the opening quote, up to and including
the closing quote. -/
def pStrBody : List Char → Option (List Char × List Char)
  | [] => none
  | c :: rest =>
      if c = cQuote then some ([], rest)
      else if c = cBackslash then
        match rest with
        | [] => none
        | e :: rest2 =>
            match unescChar e with
            | some u =>
                match pStrBody rest2 with
                | some (s, r) => some (u :: s, r)
                | none => none
            | none => none
      else
        match pStrBody rest with
        | some (s, r) => some (c :: s, r)
        | none => none

mutual

/-- Fueled parser for one JSON value (model of `JSON.parse`, whitespace-free
fragment). -/
def pVal : Nat → List Char → Option (Json × List Char)
  | 0, _ => none
  | _ + 1, [] => none
  | fuel + 1, c :: rest =>
      if c = 'n' then
        match rest with
        | 'u' :: 'l' :: 'l' :: r => some (.null, r)
        | _ => none
      else if c = 't' then
        match rest with
        | 'r' :: 'u' :: 'e' :: r => some (.bool true, r)
        | _ => none
      else if c = 'f' then
        match rest with
        | 'a' :: 'l' :: 's' :: 'e' :: r => some (.bool false, r)
        | _ => none
      else if c = cQuote then
        match pStrBody rest with
        | some (s, r) => some (.str (String.mk s), r)
        | none => none
      else if c = '[' then
        match rest with
        | [] => none
        | c2 :: rest2 =>
            if c2 = ']' then some (.arr .nil, rest2)
            else
              match pElems fuel (c2 :: rest2) with
              | some (xs, r) => some (.arr xs, r)
              | none => none
      else if c = cLBrace then
        match rest with
        | [] => none
        | c2 :: rest2 =>
            if c2 = cRBrace then some (.obj .nil, rest2)
            else
              match pMems fuel (c2 :: rest2) with
              | some (ms, r) => some (.obj ms, r)
              | none => none
      else if c = '-' then
        match rest with
        | [] => none
        | d :: ds =>
            if isDigitC d then
              let p := pDigits 0 (d :: ds)
              some (.num (-(p.1 : Int)), p.2)
            else none
      else if isDigitC c then
        let p := pDigits 0 (c :: rest)
        some (.num (p.1 : Int), p.2)
      else none

/-- Parse one or more comma-separated array elements up to and including
the closing bracket. -/
def pElems : Nat → List Char → Option (JsonList × List Char)
  | 0, _ => none
  | fuel + 1, cs =>
      match pVal fuel cs with
      | none => none
      | some (v, rest) =>
          match rest with
          | ',' :: rest2 =>
              match pElems fuel rest2 with
              | some (vs, r) => some (.cons v vs, r)
              | none => none
          | ']' :: rest2 => some (.cons v .nil, rest2)
          | _ => none

/-- Parse one or more comma-separated object members up to and including
the closing brace. -/
def pMems : Nat → List Char → Option (JsonMems × List Char)
  | 0, _ => none
  | fuel + 1, cs =>
      match cs with
      | [] => none
      | c :: rest =>
          if c = cQuote then
            match pStrBody rest with
            | none => none
            | some (k, rest1) =>
                match rest1 with
                | ':' :: rest2 =>
                    match pVal fuel rest2 with
                    | none => none
                    | some (v, rest3) =>
                        match rest3 with
                        | ',' :: rest4 =>
                            match pMems fuel rest4 with
                            | some (ms, r) => some (.cons (String.mk k) v ms, r)
                            | none => none
                        | c4 :: rest4 =>
                            if c4 = cRBrace then some (.cons (String.mk k) v .nil, rest4)
                            else none
                        | _ => none
                | _ => none
          else none

end

mutual

/-- Fuel weight of a JSON value: an upper bound on the parser fuel it needs. -/
def jw : Json → Nat
  | .null => 1
  | .bool _ => 1
  | .num _ => 1
  | .str _ => 1
  | .arr xs => 1 + jwL xs
  | .obj ms => 1 + jwM ms

def jwL : JsonList → Nat
  | .nil => 1
  | .cons h t => 1 + jw h + jwL t

def jwM : JsonMems → Nat
  | .nil => 1
  | .cons _ v t => 1 + jw v + jwM t

end

/-- Model of `JSON.parse`: succeeds only when the whole input is consumed. -/
def jsonParse (s : String) : Option Json :=
  match pVal (2 * s.data.length + 2) s.data with
  | some (v, []) => some v
  | _ => none

/-- True when the list does not start with a decimal digit (greedy number
scans stop here). -/
def noDigitHead : List Char → Bool
  | [] => true
  | c :: _ => !isDigitC c

/-! ## Key-value store models

The Redis/ValKey client is an external collaborator.  Two views are used:
`KVT` (turnstile side) keeps the TTL written by `SETEX`; `KVC` (cache
service side) is a plain association list, with the issued commands
recorded separately as a `StoreCall` trace. -/

/-- Store contents on the turnstile side: key, value, TTL seconds. -/
abbrev KVT := List (String × String × Nat)

/-- Lookup the value stored under a key. -/
def kvtGet : KVT → String → Option String
  | [], _ => none
  | (k', v, _) :: rest, k => if k' = k then some v else kvtGet rest k

/-- Remove a key (`DEL`). -/
def kvtDel : KVT → String → KVT
  | [], _ => []
  | (k', v, t) :: rest, k =>
      if k' = k then kvtDel rest k else (k', v, t) :: kvtDel rest k

/-- Write a key with a TTL (`SETEX`). -/
def kvtSetex (kv : KVT) (k : String) (ttl : Nat) (v : String) : KVT :=
  (k, v, ttl) :: kvtDel kv k

/-- Store contents on the cache-service side. -/
abbrev KVC := List (String × String)

def kvcGet : KVC → String → Option String
  | [], _ => none
  | (k', v) :: rest, k => if k' = k then some v else kvcGet rest k

def kvcDel : KVC → String → KVC
  | [], _ => []
  | (k', v) :: rest, k =>
      if k' = k then kvcDel rest k else (k', v) :: kvcDel rest k

def kvcSet (kv : KVC) (k v : String) : KVC := (k, v) :: kvcDel kv k

/-! ## Turnstile verifier (`src/lib/turnstile.ts`) -/

/-- Cache TTL for successful Turnstile verifications (10 minutes). -/
def TURNSTILE_CACHE_TTL : Nat := 600

/-- Environment configuration read by `verifyTurnstileToken`
(`process.env.*`; `none` models an unset variable). -/
structure TsConfig where
  turnstileEnabled : Option String
  turnstileSecretKey : Option String
  nodeEnv : Option String
  turnstileBypassToken : Option String

/-- JavaScript truthiness of an optional string (`undefined` and `""` are
falsy). -/
def truthy : Option String → Bool
  | none => false
  | some s => !(s == "")

/-- Model of `x || dflt` on an optional string. -/
def jsOrDefault (x : Option String) (dflt : String) : String :=
  match x with
  | some s => if s = "" then dflt else s
  | none => dflt

/-- The `token` argument at runtime: a string, or a non-string value that
slipped past the type system (`null`, a number, ...). -/
inductive TokenArg where
  | str (s : String)
  | nonString
deriving DecidableEq

/-- Injectable store faults for one `verifyTurnstileToken` call: `some e`
makes the corresponding client call throw `e`. -/
structure TsFaults where
  getFail : Option Nat
  delFail : Option Nat
  setexFail : Option Nat

/-- Parsed body of the Cloudflare siteverify response.  `success` is
`Option Bool` because the cast in the source performs no validation: a
missing field behaves like `false` under `!result.success`. -/
structure TurnstileResponse where
  success : Option Bool
  errorCodes : Option (List String)
deriving DecidableEq

/-- Outcome of the `fetch` to the verification endpoint. -/
inductive FetchOutcome where
  | networkError
  | httpError (status : Nat)
  | bodyNotJson
  | body (r : TurnstileResponse)
deriving DecidableEq

/-- Which `return` statement of `verifyTurnstileToken` produced the
result (ghost instrumentation; does not influence control flow). -/
inductive VPath where
  | disabled
  | noSecret
  | invalidToken
  | bypass
  | cacheHit
  | apiHttpError
  | apiRejected
  | apiError
  | apiSuccess
deriving DecidableEq

/-- Result of one `verifyTurnstileToken` call: resolved boolean, store
contents afterwards, number of `fetch` calls issued, and the return path
taken. -/
structure VOut where
  value : Bool
  kv : KVT
  remoteCalls : Nat
  path : VPath
deriving DecidableEq

/-- Generate a cache key for a Turnstile token: SHA-256 of the first 32
characters of the token, plus the client IP (`generateCacheKey`).  The
hash itself is an external primitive, passed in as `sha256hex`. -/
def generateCacheKey (sha256hex : String → String) (token clientIp : String) : String :=
  "turnstile:" ++ sha256hex (token.take 32) ++ ":" ++ clientIp

/-- The second `try` block of `verifyTurnstileToken`: fetch from the
verification endpoint, decode, and on success cache the verdict (the
inner `try` swallowing a failed `SETEX`).  Factored out because its
result, apart from the store contents, does not depend on `kv`. -/
def tsApiPhase (faults : TsFaults) (fetchOut : FetchOutcome) (kv : KVT)
    (cacheKey : String) : VOut :=
  match fetchOut with
  | .networkError => ⟨false, kv, 1, .apiError⟩
  | .httpError _ => ⟨false, kv, 1, .apiHttpError⟩
  | .bodyNotJson => ⟨false, kv, 1, .apiError⟩
  | .body r =>
    if r.success ≠ some true then
      -- Do NOT cache failed verifications
      ⟨false, kv, 1, .apiRejected⟩
    else
      match faults.setexFail with
      | some _ => ⟨true, kv, 1, .apiSuccess⟩   -- cache write failed: still valid
      | none => ⟨true, kvtSetex kv cacheKey TURNSTILE_CACHE_TTL "true", 1, .apiSuccess⟩

/-- Shallow embedding of `verifyTurnstileToken`.  A thrown exception is
an `Except.error`; every `try`/`catch` of the source appears as explicit
handling of the fallible collaborator results. -/
def verifyTurnstileToken (cfg : TsConfig) (sha256hex : String → String)
    (faults : TsFaults) (fetchOut : FetchOutcome) (kv : KVT)
    (token : TokenArg) (remoteip : Option String) : Except Nat VOut :=
  -- if (process.env.TURNSTILE_ENABLED !== "true") return true
  if cfg.turnstileEnabled ≠ some "true" then
    .ok ⟨true, kv, 0, .disabled⟩
  -- if (!secretKey) return false
  else if truthy cfg.turnstileSecretKey = false then
    .ok ⟨false, kv, 0, .noSecret⟩
  else
    -- if (!token || typeof token !== "string") return false
    match token with
    | .nonString => .ok ⟨false, kv, 0, .invalidToken⟩
    | .str s =>
      if s = "" then .ok ⟨false, kv, 0, .invalidToken⟩
      -- if (NODE_ENV !== "production" && bypassToken && token === bypassToken)
      else if cfg.nodeEnv ≠ some "production" ∧ truthy cfg.turnstileBypassToken = true ∧
          cfg.turnstileBypassToken = some s then
        .ok ⟨true, kv, 0, .bypass⟩
      else
        let clientIp := jsOrDefault remoteip "unknown"
        let cacheKey := generateCacheKey sha256hex s clientIp
        -- try { cachedResult = redis.get; if ≠ null { redis.del; return } } catch { fall through }
        let cacheReturn : Option VOut :=
          match faults.getFail with
          | some _ => none                     -- get threw: caught, continue to API
          | none =>
            match kvtGet kv cacheKey with
            | none => none                     -- cache miss
            | some cachedResult =>
              match faults.delFail with
              | some _ => none                 -- del threw: caught, continue to API
              | none => some ⟨cachedResult == "true", kvtDel kv cacheKey, 0, .cacheHit⟩
        match cacheReturn with
        | some out => .ok out
        | none => .ok (tsApiPhase faults fetchOut kv cacheKey)

/-! ## Gate middleware (`src/middleware/turnstile.ts`) -/

/-- The request fields read by `validateTurnstileToken`. -/
structure GateReq where
  path : String
  bodyToken : Option String          -- req.body["cf-turnstile-response"]
  reqIp : Option String              -- req.ip
  socketRemoteAddress : Option String
deriving DecidableEq

/-- What the middleware did with the response. -/
inductive GateOutcome where
  | nextCalled
  | responded (status : Nat) (error : String) (message : String)
deriving DecidableEq

/-- Middleware result plus ghost record of the verifier invocation. -/
structure GateResult where
  outcome : GateOutcome
  verifierArg : Option (String × Option String)
deriving DecidableEq

/-- Model of `req.ip || req.socket.remoteAddress`. -/
def jsOrOpt (a b : Option String) : Option String :=
  match a with
  | some s => if s = "" then b else some s
  | none => b

/-- Shallow embedding of the `validateTurnstileToken` middleware.  The
verifier is passed in as a function of the token and resolved client
IP. -/
def validateTurnstileToken (enabled : Option String)
    (verify : String → Option String → Bool) (req : GateReq) : GateResult :=
  let isAuthEndpoint := req.path = "/sign-up/email" ∨ req.path = "/sign-in/email"
  if ¬ isAuthEndpoint then ⟨.nextCalled, none⟩
  else if truthy req.bodyToken = false then
    -- no token provided
    if enabled ≠ some "true" then ⟨.nextCalled, none⟩
    else ⟨.responded 400 "Bad Request" "Turnstile verification required", none⟩
  else
    match req.bodyToken with
    | none => ⟨.nextCalled, none⟩   -- unreachable: truthy none = false
    | some t =>
      let clientIp := jsOrOpt req.reqIp req.socketRemoteAddress
      if verify t clientIp then ⟨.nextCalled, some (t, clientIp)⟩
      else ⟨.responded 403 "Forbidden" "Turnstile verification failed. Please try again.",
            some (t, clientIp)⟩

/-! ## Cache service (`src/lib/cache.ts`) -/

/-- Hit/miss counters of one `CacheService` instance. -/
structure CacheMetrics where
  hits : Nat
  misses : Nat
deriving DecidableEq

/-- One command issued to the underlying store. -/
inductive StoreCall where
  | get (key : String)
  | set (key value : String) (ttl : Option Int)
  | del (keys : List String)
  | scan (cursor pattern : String) (count : Nat)
  | mget (keys : List String)
  | pipelineSet (key value : String) (ttl : Option Int)
  | pipelineExec
deriving DecidableEq

/-- `buildKey`: full cache key with the instance prefix. -/
def buildKey (pfx key : String) : String := pfx ++ key

/-- A value returned by `CacheService.get`: parsed JSON, or the raw
string when `JSON.parse` failed. -/
inductive GetVal where
  | parsed (j : Json)
  | raw (s : String)
deriving DecidableEq

/-- The JSON-parse-with-raw-fallback step shared by `get` and `mget`. -/
def parseFallback (value : String) : GetVal :=
  match jsonParse value with
  | some j => .parsed j
  | none => .raw value

/-- Shallow embedding of `CacheService.get`.  `fail = some e` makes the
store `GET` throw `e`.  Returns (result, metrics afterwards, issued
commands). -/
def cacheGet (pfx : String) (m : CacheMetrics) (kv : KVC) (fail : Option Nat)
    (key : String) : Except Nat (Option GetVal) × CacheMetrics × List StoreCall :=
  let fullKey := buildKey pfx key
  match fail with
  | some e => (.error e, m, [.get fullKey])          -- recorded, then re-thrown
  | none =>
    match kvcGet kv fullKey with
    | none => (.ok none, ⟨m.hits, m.misses + 1⟩, [.get fullKey])
    | some value => (.ok (some (parseFallback value)), ⟨m.hits + 1, m.misses⟩, [.get fullKey])

/-- TTL actually applied by `set`/`mset`: `ttlSeconds !== undefined &&
ttlSeconds > 0` selects the `EX` variant. -/
def normTtl : Option Int → Option Int
  | some t => if t > 0 then some t else none
  | none => none

/-- Shallow embedding of `CacheService.set`.  Returns (result, store
afterwards, issued commands). -/
def cacheSet (pfx : String) (kv : KVC) (fail : Option Nat) (key : String)
    (value : Json) (ttlSeconds : Option Int) : Except Nat Unit × KVC × List StoreCall :=
  let fullKey := buildKey pfx key
  let serialized := jsonStringify value
  let call := StoreCall.set fullKey serialized (normTtl ttlSeconds)
  match fail with
  | some e => (.error e, kv, [call])
  | none => (.ok (), kvcSet kv fullKey serialized, [call])

/-- Shallow embedding of `CacheService.delete`. -/
def cacheDelete (pfx : String) (kv : KVC) (fail : Option Nat) (key : String) :
    Except Nat Unit × KVC × List StoreCall :=
  let fullKey := buildKey pfx key
  match fail with
  | some e => (.error e, kv, [.del [fullKey]])
  | none => (.ok (), kvcDel kv fullKey, [.del [fullKey]])

/-- Shallow embedding of `CacheService.mget`. -/
def cacheMget (pfx : String) (m : CacheMetrics) (kv : KVC) (fail : Option Nat)
    (keys : List String) :
    Except Nat (List (Option GetVal)) × CacheMetrics × List StoreCall :=
  if keys.isEmpty then (.ok [], m, [])
  else
    let fullKeys := keys.map (buildKey pfx)
    match fail with
    | some e => (.error e, m, [.mget fullKeys])
    | none =>
      let values := fullKeys.map (kvcGet kv)
      let results := values.map (fun v =>
        match v with
        | none => none
        | some s => some (parseFallback s))
      let hits := values.countP (fun v => v.isSome)
      let misses := values.countP (fun v => v.isNone)
      (.ok results, ⟨m.hits + hits, m.misses + misses⟩, [.mget fullKeys])

/-- One entry of a bulk `mset`. -/
structure MSetEntry where
  key : String
  value : Json
  ttl : Option Int
deriving DecidableEq

/-- Apply the pipelined SETs of `mset` to the store. -/
def applyMset (pfx : String) : KVC → List MSetEntry → KVC
  | kv, [] => kv
  | kv, e :: es => applyMset pfx (kvcSet kv (buildKey pfx e.key) (jsonStringify e.value)) es

/-- Shallow embedding of `CacheService.mset`. -/
def cacheMset (pfx : String) (kv : KVC) (fail : Option Nat) (entries : List MSetEntry) :
    Except Nat Unit × KVC × List StoreCall :=
  if entries.isEmpty then (.ok (), kv, [])
  else
    let calls := entries.map (fun e =>
      StoreCall.pipelineSet (buildKey pfx e.key) (jsonStringify e.value) (normTtl e.ttl))
      ++ [StoreCall.pipelineExec]
    match fail with
    | some e => (.error e, kv, calls)
    | none => (.ok (), applyMset pfx kv entries, calls)

/-- Loop of `deleteByPattern`: do `SCAN cursor MATCH fullPattern COUNT
100`; `DEL` the returned keys when non-empty; stop when the store
reports cursor `"0"`.  `scanFn` is the store's scan behaviour; `fuel`
bounds the iterations of the shallow embedding (the source trusts the
store to terminate). -/
def dbpLoop (scanFn : String → String × List String) (fullPattern : String) :
    Nat → String → Option (Nat × List StoreCall)
  | 0, _ => none
  | fuel + 1, cursor =>
    let step := scanFn cursor
    let callsHere := StoreCall.scan cursor fullPattern 100 ::
      (if step.2.isEmpty then [] else [StoreCall.del step.2])
    if step.1 = "0" then some (step.2.length, callsHere)
    else
      match dbpLoop scanFn fullPattern fuel step.1 with
      | some (cnt, tr) => some (step.2.length + cnt, callsHere ++ tr)
      | none => none

/-- Shallow embedding of `CacheService.deleteByPattern`: returns
(deleted count, issued commands). -/
def deleteByPattern (pfx : String) (scanFn : String → String × List String)
    (fuel : Nat) (pat : String) : Option (Nat × List StoreCall) :=
  dbpLoop scanFn (buildKey pfx pat) fuel "0"

/-- Store model for SCAN: the keys matching the pattern, served in chunks
of 100; the final chunk comes with cursor `"0"`.  Non-zero cursors encode
the next start index as a string of `x`s (any injective encoding distinct
from `"0"` works). -/
def mkCursor (n : Nat) : String := String.mk (List.replicate n 'x')

def cursorIdx (s : String) : Nat := if s = "0" then 0 else s.length

/-- Chunked scan over a fixed list of matching keys. -/
def scanChunks (matching : List String) (cursor : String) : String × List String :=
  let i := cursorIdx cursor
  let chunk := (matching.drop i).take 100
  let next := if matching.length ≤ i + 100 then "0" else mkCursor (i + 100)
  (next, chunk)

/-- Number of SCAN commands in a trace. -/
def scanCount (tr : List StoreCall) : Nat :=
  tr.countP (fun c => match c with | .scan _ _ _ => true | _ => false)

/-- `getHitRate`: hits / (hits + misses), 0 when there were no requests.
Modelled over the rationals (the source computes a JS float). -/
def getHitRate (m : CacheMetrics) : ℚ :=
  if m.hits + m.misses = 0 then 0 else (m.hits : ℚ) / ((m.hits : ℚ) + (m.misses : ℚ))

deriving instance DecidableEq for Except

/-- Caller-visible projection of a verifier outcome: resolved value,
number of remote calls, return path (the store contents are dropped). -/
def vproj : Except Nat VOut → Option (Bool × Nat × VPath)
  | .ok o => some (o.value, o.remoteCalls, o.path)
  | .error _ => none

/-! ## Keyword literals expand to their characters -/

theorem jstr_null : jstr "null" = ['n', 'u', 'l', 'l'] := rfl

theorem jstr_true : jstr "true" = ['t', 'r', 'u', 'e'] := rfl

theorem jstr_false : jstr "false" = ['f', 'a', 'l', 's', 'e'] := rfl

/-! ## Decimal printing round-trip -/

theorem digitChar_isDigit (d : Nat) : isDigitC (digitChar d) = true := by
  unfold digitChar
  split <;> decide

theorem digitVal_digitChar (d : Nat) (h : d < 10) : digitVal (digitChar d) = d := by
  revert h
  revert d
  decide

theorem natCharsAux_acc (n : Nat) : ∀ acc, natCharsAux n acc = natChars n ++ acc := by
  induction n using Nat.strong_induction_on with
  | _ n ih =>
    intro acc
    by_cases h : n < 10
    · unfold natChars natCharsAux
      simp [h]
    · have hd : n / 10 < n := Nat.div_lt_self (by omega) (by omega)
      conv_lhs => unfold natCharsAux
      conv_rhs => unfold natChars natCharsAux
      simp only [h, dite_false]
      rw [ih _ hd, ih _ hd]
      simp

theorem natChars_lt10 (n : Nat) (h : n < 10) : natChars n = [digitChar n] := by
  unfold natChars natCharsAux
  simp [h]

theorem natChars_ge10 (n : Nat) (h : ¬ n < 10) :
    natChars n = natChars (n / 10) ++ [digitChar (n % 10)] := by
  conv_lhs => unfold natChars natCharsAux
  simp only [h, dite_false]
  rw [natCharsAux_acc]

theorem natChars_ne_nil (n : Nat) : natChars n ≠ [] := by
  by_cases h : n < 10
  · rw [natChars_lt10 n h]; simp
  · rw [natChars_ge10 n h]; simp

theorem natChars_head_digit (n : Nat) :
    ∃ c cs, natChars n = c :: cs ∧ isDigitC c = true := by
  induction n using Nat.strong_induction_on with
  | _ n ih =>
    by_cases h : n < 10
    · exact ⟨digitChar n, [], natChars_lt10 n h, digitChar_isDigit n⟩
    · obtain ⟨c, cs, hc, hd⟩ := ih (n / 10) (Nat.div_lt_self (by omega) (by omega))
      exact ⟨c, cs ++ [digitChar (n % 10)], by rw [natChars_ge10 n h, hc]; simp, hd⟩

theorem pDigits_stop (acc : Nat) (cs : List Char) (h : noDigitHead cs = true) :
    pDigits acc cs = (acc, cs) := by
  cases cs with
  | nil => rfl
  | cons c rest =>
    simp only [noDigitHead, Bool.not_eq_true'] at h
    simp [pDigits, h]

theorem pDigits_append (n : Nat) :
    ∀ acc rest, pDigits acc (natChars n ++ rest) =
      pDigits (acc * 10 ^ (natChars n).length + n) rest := by
  induction n using Nat.strong_induction_on with
  | _ n ih =>
    intro acc rest
    by_cases h : n < 10
    · rw [natChars_lt10 n h]
      simp [pDigits, digitChar_isDigit, digitVal_digitChar n h]
    · rw [natChars_ge10 n h]
      have hd : n / 10 < n := Nat.div_lt_self (by omega) (by omega)
      rw [List.append_assoc, ih _ hd]
      simp only [List.singleton_append, pDigits, digitChar_isDigit,
        digitVal_digitChar _ (Nat.mod_lt n (by omega)), if_true]
      have hlen : (natChars (n / 10) ++ [digitChar (n % 10)]).length =
          (natChars (n / 10)).length + 1 := by simp
      rw [hlen]
      congr 1
      have := Nat.div_add_mod n 10
      ring_nf
      omega

/-! ## String escaping round-trip -/

theorem pStrBody_esc : ∀ cs rest, pStrBody (escBody cs ++ (cQuote :: rest)) = some (cs, rest) := by
  intro cs
  induction cs with
  | nil =>
    intro rest
    rw [escBody, List.nil_append, pStrBody.eq_def]
    simp
  | cons c cs ih =>
    intro rest
    by_cases hq : c = cQuote
    · subst hq
      have h1 : escChar cQuote = [cBackslash, cQuote] := by simp [escChar]
      simp only [escBody, h1, List.cons_append, List.append_assoc]
      rw [pStrBody.eq_def]
      have h2 : (cBackslash = cQuote) = False := by decide
      have h3 : unescChar cQuote = some cQuote := by simp [unescChar]
      simp [h2, h3, ih]
    · by_cases hb : c = cBackslash
      · subst hb
        have h1 : escChar cBackslash = [cBackslash, cBackslash] := by
          simp [escChar]; decide
        simp only [escBody, h1, List.cons_append, List.append_assoc]
        rw [pStrBody.eq_def]
        have h2 : (cBackslash = cQuote) = False := by decide
        have h3 : unescChar cBackslash = some cBackslash := by decide
        simp [h2, h3, ih]
      · by_cases hn : c = cNewline
        · subst hn
          have h1 : escChar cNewline = [cBackslash, 'n'] := by decide
          simp only [escBody, h1, List.cons_append, List.append_assoc]
          rw [pStrBody.eq_def]
          have h2 : (cBackslash = cQuote) = False := by decide
          have h3 : unescChar 'n' = some cNewline := by decide
          simp [h2, h3, ih]
        · by_cases htb : c = cTab
          · subst htb
            have h1 : escChar cTab = [cBackslash, 't'] := by decide
            simp only [escBody, h1, List.cons_append, List.append_assoc]
            rw [pStrBody.eq_def]
            have h2 : (cBackslash = cQuote) = False := by decide
            have h3 : unescChar 't' = some cTab := by decide
            simp [h2, h3, ih]
          · by_cases hcr : c = cCR
            · subst hcr
              have h1 : escChar cCR = [cBackslash, 'r'] := by decide
              simp only [escBody, h1, List.cons_append, List.append_assoc]
              rw [pStrBody.eq_def]
              have h2 : (cBackslash = cQuote) = False := by decide
              have h3 : unescChar 'r' = some cCR := by decide
              simp [h2, h3, ih]
            · have h1 : escChar c = [c] := by
                simp [escChar, hq, hb, hn, htb, hcr]
              simp only [escBody, h1, List.cons_append, List.singleton_append]
              rw [pStrBody.eq_def]
              simp [hq, hb, ih]

/-! ## Character-class facts used to steer the parser's dispatch -/

theorem digit_ne (c : Char) (h : isDigitC c = true) :
    c ≠ 'n' ∧ c ≠ 't' ∧ c ≠ 'f' ∧ c ≠ cQuote ∧ c ≠ '[' ∧ c ≠ cLBrace ∧
      c ≠ '-' ∧ c ≠ ']' ∧ c ≠ cRBrace ∧ c ≠ ',' ∧ c ≠ ':' := by
  unfold isDigitC at h
  refine ⟨?_, ?_, ?_, ?_, ?_, ?_, ?_, ?_, ?_, ?_, ?_⟩ <;>
    (intro heq; subst heq; revert h; decide)

/-- The first character printed for any JSON value, with the facts needed
to recognise a non-empty array/object body and a following separator. -/
theorem jsonChars_head (v : Json) :
    ∃ c cs, jsonChars v = c :: cs ∧ c ≠ ']' ∧ c ≠ cRBrace := by
  cases v with
  | null => exact ⟨'n', _, rfl, by decide, by decide⟩
  | bool b =>
    cases b with
    | true => exact ⟨'t', _, rfl, by decide, by decide⟩
    | false => exact ⟨'f', _, rfl, by decide, by decide⟩
  | num n =>
    cases n with
    | ofNat m =>
      obtain ⟨c, cs, hc, hd⟩ := natChars_head_digit m
      obtain ⟨_, _, _, _, _, _, _, h8, h9, _, _⟩ := digit_ne c hd
      exact ⟨c, cs, by simp [jsonChars, intChars, hc], h8, h9⟩
    | negSucc m => exact ⟨'-', natChars (m + 1), by simp [jsonChars, intChars], by decide, by decide⟩
  | str s => exact ⟨cQuote, _, rfl, by decide, by decide⟩
  | arr xs => exact ⟨'[', _, rfl, by decide, by decide⟩
  | obj ms => exact ⟨cLBrace, _, rfl, by decide, by decide⟩

end AuthApi

namespace AuthApi

theorem string_mk_data (s : String) : String.mk s.data = s := rfl

theorem arrChars_head (h : Json) (t : JsonList) :
    ∃ c cs, arrChars (.cons h t) = c :: cs ∧ c ≠ ']' ∧ c ≠ cRBrace := by
  obtain ⟨c, cs, hc, h1, h2⟩ := jsonChars_head h
  cases t with
  | nil => exact ⟨c, cs, by rw [arrChars, hc], h1, h2⟩
  | cons h2' t2 =>
    exact ⟨c, cs ++ ',' :: arrChars (.cons h2' t2), by rw [arrChars, hc]; simp, h1, h2⟩

theorem noDigitHead_cons (c : Char) (cs : List Char) (h : isDigitC c = false) :
    noDigitHead (c :: cs) = true := by simp [noDigitHead, h]

theorem jwL_ge_one (xs : JsonList) : 1 ≤ jwL xs := by
  cases xs with
  | nil => simp [jwL]
  | cons h t => simp [jwL]; omega

theorem jwM_ge_one (ms : JsonMems) : 1 ≤ jwM ms := by
  cases ms with
  | nil => simp [jwM]
  | cons k v t => simp [jwM]; omega

theorem memChars_head (k : String) (v : Json) (t : JsonMems) :
    ∃ cs, memChars (.cons k v t) = cQuote :: cs := by
  cases t with
  | nil =>
    refine ⟨(escBody k.data ++ [cQuote]) ++ ':' :: jsonChars v, ?_⟩
    rw [memChars, strLitChars]
    simp
  | cons k2 v2 t2 =>
    refine ⟨(escBody k.data ++ [cQuote]) ++ ':' :: jsonChars v ++ ',' :: memChars (.cons k2 v2 t2), ?_⟩
    rw [memChars, strLitChars]
    simp

mutual

theorem pVal_rt (v : Json) : ∀ (fuel : Nat) (rest : List Char),
    jw v ≤ fuel → noDigitHead rest = true →
    pVal fuel (jsonChars v ++ rest) = some (v, rest) := by
  cases v with
  | null =>
    intro fuel rest hf _
    obtain ⟨f, rfl⟩ : ∃ f, fuel = f + 1 := ⟨fuel - 1, by simp [jw] at hf; omega⟩
    simp [jsonChars, jstr_null, pVal]
  | bool b =>
    intro fuel rest hf _
    obtain ⟨f, rfl⟩ : ∃ f, fuel = f + 1 := ⟨fuel - 1, by simp [jw] at hf; omega⟩
    cases b <;> simp [jsonChars, jstr_true, jstr_false, pVal]
  | num n =>
    intro fuel rest hf hrest
    obtain ⟨f, rfl⟩ : ∃ f, fuel = f + 1 := ⟨fuel - 1, by simp [jw] at hf; omega⟩
    cases n with
    | ofNat m =>
      have h1 : jsonChars (.num (Int.ofNat m)) = natChars m := rfl
      obtain ⟨c, cs, hc, hd⟩ := natChars_head_digit m
      obtain ⟨n1, n2, n3, n4, n5, n6, n7, _, _, _, _⟩ := digit_ne c hd
      rw [h1, hc]
      simp only [List.cons_append, pVal, n1, n2, n3, n4, n5, n6, n7, hd, if_false, if_true,
        ite_false, ite_true]
      have hs : c :: (cs ++ rest) = natChars m ++ rest := by rw [hc]; simp
      rw [hs, pDigits_append, pDigits_stop _ _ hrest]
      simp
    | negSucc m =>
      have h1 : jsonChars (.num (Int.negSucc m)) = '-' :: natChars (m + 1) := rfl
      obtain ⟨c, cs, hc, hd⟩ := natChars_head_digit (m + 1)
      rw [h1, hc]
      have e1 : ((cQuote = '-')) = False := by decide
      have e2 : ((cLBrace = '-')) = False := by decide
      simp only [List.cons_append, pVal, if_false, if_true, ite_false, ite_true,
        show (('-' : Char) = 'n') = False by decide, show (('-' : Char) = 't') = False by decide,
        show (('-' : Char) = 'f') = False by decide, show (('-' : Char) = cQuote) = False by decide,
        show (('-' : Char) = '[') = False by decide, show (('-' : Char) = cLBrace) = False by decide,
        hd]
      have hs : c :: (cs ++ rest) = natChars (m + 1) ++ rest := by rw [hc]; simp
      rw [hs, pDigits_append, pDigits_stop _ _ hrest]
      simp [Int.negSucc_eq]
  | str s =>
    intro fuel rest hf _
    obtain ⟨f, rfl⟩ : ∃ f, fuel = f + 1 := ⟨fuel - 1, by simp [jw] at hf; omega⟩
    have h1 : jsonChars (.str s) = strLitChars s := rfl
    rw [h1, strLitChars]
    have h2 : (cQuote :: (escBody s.data ++ [cQuote])) ++ rest
        = cQuote :: (escBody s.data ++ (cQuote :: rest)) := by simp
    rw [h2]
    have hn : (cQuote = 'n') = False := by decide
    have ht : (cQuote = 't') = False := by decide
    have hf' : (cQuote = 'f') = False := by decide
    simp [pVal, hn, ht, hf', pStrBody_esc, string_mk_data]
  | arr xs =>
    intro fuel rest hf _
    obtain ⟨f, rfl⟩ : ∃ f, fuel = f + 1 := ⟨fuel - 1, by simp [jw] at hf; omega⟩
    cases xs with
    | nil =>
      simp [jsonChars, arrChars, pVal, show (('[' : Char) = 'n') = False by decide,
        show (('[' : Char) = 't') = False by decide, show (('[' : Char) = 'f') = False by decide,
        show (('[' : Char) = cQuote) = False by decide]
    | cons h t =>
      have hw : jwL (.cons h t) ≤ f := by simp [jw] at hf; omega
      obtain ⟨c2, cs2, hc2, hne, _⟩ := arrChars_head h t
      have h1 : jsonChars (.arr (.cons h t)) ++ rest
          = '[' :: (c2 :: (cs2 ++ (']' :: rest))) := by
        rw [jsonChars, hc2]; simp
      rw [h1]
      have hb : ((cQuote = '[')) = False := by decide
      simp only [pVal, show (('[' : Char) = 'n') = False by decide,
        show (('[' : Char) = 't') = False by decide, show (('[' : Char) = 'f') = False by decide,
        show (('[' : Char) = cQuote) = False by decide, if_false, if_true, ite_false, ite_true,
        eq_self_iff_true, hne]
      have hs : c2 :: (cs2 ++ (']' :: rest)) = arrChars (.cons h t) ++ (']' :: rest) := by
        rw [hc2]; simp
      rw [hs, pElems_rt (.cons h t) f rest (by simp) hw]
  | obj ms =>
    intro fuel rest hf _
    obtain ⟨f, rfl⟩ : ∃ f, fuel = f + 1 := ⟨fuel - 1, by simp [jw] at hf; omega⟩
    cases ms with
    | nil =>
      have e : (cLBrace = cRBrace) = False := by decide
      simp [jsonChars, memChars, pVal, show (cLBrace = 'n') = False by decide,
        show (cLBrace = 't') = False by decide, show (cLBrace = 'f') = False by decide,
        show (cLBrace = cQuote) = False by decide, show (cLBrace = '[') = False by decide]
    | cons k v t =>
      have hw : jwM (.cons k v t) ≤ f := by simp [jw] at hf; omega
      obtain ⟨cs2, hc2⟩ := memChars_head k v t
      have h1 : jsonChars (.obj (.cons k v t)) ++ rest
          = cLBrace :: (cQuote :: (cs2 ++ (cRBrace :: rest))) := by
        rw [jsonChars, hc2]; simp
      rw [h1]
      have hne : (cQuote = cRBrace) = False := by decide
      simp only [pVal, show (cLBrace = 'n') = False by decide,
        show (cLBrace = 't') = False by decide, show (cLBrace = 'f') = False by decide,
        show (cLBrace = cQuote) = False by decide, show (cLBrace = '[') = False by decide,
        if_false, if_true, ite_false, ite_true, eq_self_iff_true, hne]
      have hs : cQuote :: (cs2 ++ (cRBrace :: rest)) = memChars (.cons k v t) ++ (cRBrace :: rest) := by
        rw [hc2]; simp
      rw [hs, pMems_rt (.cons k v t) f rest (by simp) hw]
      

theorem pElems_rt (xs : JsonList) : ∀ (fuel : Nat) (rest : List Char),
    xs ≠ .nil → jwL xs ≤ fuel →
    pElems fuel (arrChars xs ++ (']' :: rest)) = some (xs, rest) := by
  cases xs with
  | nil => intro fuel rest hne _; exact absurd rfl hne
  | cons h t =>
    intro fuel rest _ hf
    obtain ⟨f, rfl⟩ : ∃ f, fuel = f + 1 := ⟨fuel - 1, by simp [jwL] at hf; omega⟩
    have hwh : jw h ≤ f := by
      have := jwL_ge_one t
      simp [jwL] at hf; omega
    cases t with
    | nil =>
      rw [arrChars]
      have hp : pVal f (jsonChars h ++ (']' :: rest)) = some (h, ']' :: rest) :=
        pVal_rt h f (']' :: rest) hwh (noDigitHead_cons _ _ (by decide))
      simp [pElems, hp]
    | cons h2 t2 =>
      have hwt : jwL (.cons h2 t2) ≤ f := by simp [jwL] at hf ⊢; omega
      rw [arrChars]
      have h1 : (jsonChars h ++ ',' :: arrChars (.cons h2 t2)) ++ (']' :: rest)
          = jsonChars h ++ (',' :: (arrChars (.cons h2 t2) ++ (']' :: rest))) := by simp
      rw [h1]
      have hp : pVal f (jsonChars h ++ (',' :: (arrChars (.cons h2 t2) ++ (']' :: rest))))
          = some (h, ',' :: (arrChars (.cons h2 t2) ++ (']' :: rest))) :=
        pVal_rt h f _ hwh (noDigitHead_cons _ _ (by decide))
      have hrec := pElems_rt (.cons h2 t2) f rest (by simp) hwt
      simp [pElems, hp, hrec]

theorem pMems_rt (ms : JsonMems) : ∀ (fuel : Nat) (rest : List Char),
    ms ≠ .nil → jwM ms ≤ fuel →
    pMems fuel (memChars ms ++ (cRBrace :: rest)) = some (ms, rest) := by
  cases ms with
  | nil => intro fuel rest hne _; exact absurd rfl hne
  | cons k v t =>
    intro fuel rest _ hf
    obtain ⟨f, rfl⟩ : ∃ f, fuel = f + 1 := ⟨fuel - 1, by simp [jwM] at hf; omega⟩
    have hwv : jw v ≤ f := by
      have := jwM_ge_one t
      simp [jwM] at hf; omega
    cases t with
    | nil =>
      rw [memChars, strLitChars]
      have h1 : ((cQuote :: (escBody k.data ++ [cQuote])) ++ ':' :: jsonChars v) ++ (cRBrace :: rest)
          = cQuote :: (escBody k.data ++ (cQuote :: (':' :: (jsonChars v ++ (cRBrace :: rest))))) := by
        simp
      rw [h1]
      have hp : pVal f (jsonChars v ++ (cRBrace :: rest)) = some (v, cRBrace :: rest) :=
        pVal_rt v f _ hwv (noDigitHead_cons _ _ (by decide))
      have hcomma : (cRBrace = ',') = False := by decide
      simp [pMems, pStrBody_esc, hp, hcomma, string_mk_data]
    | cons k2 v2 t2 =>
      have hwt : jwM (.cons k2 v2 t2) ≤ f := by simp [jwM] at hf ⊢; omega
      rw [memChars, strLitChars]
      have h1 : ((cQuote :: (escBody k.data ++ [cQuote])) ++ ':' :: jsonChars v ++ ',' :: memChars (.cons k2 v2 t2)) ++ (cRBrace :: rest)
          = cQuote :: (escBody k.data ++ (cQuote :: (':' :: (jsonChars v ++ (',' :: (memChars (.cons k2 v2 t2) ++ (cRBrace :: rest))))))) := by
        simp
      rw [h1]
      have hp : pVal f (jsonChars v ++ (',' :: (memChars (.cons k2 v2 t2) ++ (cRBrace :: rest))))
          = some (v, ',' :: (memChars (.cons k2 v2 t2) ++ (cRBrace :: rest))) :=
        pVal_rt v f _ hwv (noDigitHead_cons _ _ (by decide))
      have hrec := pMems_rt (.cons k2 v2 t2) f rest (by simp) hwt
      simp [pMems, pStrBody_esc, hp, hrec, string_mk_data]

end

end AuthApi

namespace AuthApi

/-! ## The serializer output fits in the parser's fuel budget -/

mutual

theorem jw_le_len (v : Json) : jw v ≤ 2 * (jsonChars v).length := by
  cases v with
  | null => simp [jw, jsonChars, jstr_null]
  | bool b => cases b <;> simp [jw, jsonChars, jstr_true, jstr_false]
  | num n =>
    cases n with
    | ofNat m =>
      have h1 : 1 ≤ (natChars m).length := List.length_pos.mpr (natChars_ne_nil m)
      have h2 : jsonChars (.num (Int.ofNat m)) = natChars m := rfl
      rw [h2, jw]
      omega
    | negSucc m =>
      have h2 : jsonChars (.num (Int.negSucc m)) = '-' :: natChars (m + 1) := rfl
      rw [h2, jw]
      simp only [List.length_cons]
      omega
  | str s =>
    rw [show jsonChars (.str s) = strLitChars s from rfl, strLitChars, jw]
    simp only [List.length_cons, List.length_append, List.length_singleton]
    omega
  | arr xs =>
    have h := jwL_le_len xs
    rw [show jsonChars (.arr xs) = '[' :: (arrChars xs ++ [']']) from rfl, jw]
    simp only [List.length_cons, List.length_append, List.length_singleton]
    omega
  | obj ms =>
    have h := jwM_le_len ms
    rw [show jsonChars (.obj ms) = cLBrace :: (memChars ms ++ [cRBrace]) from rfl, jw]
    simp only [List.length_cons, List.length_append, List.length_singleton]
    omega

theorem jwL_le_len (xs : JsonList) : jwL xs ≤ 2 * (arrChars xs).length + 2 := by
  cases xs with
  | nil => simp [jwL, arrChars]
  | cons h t =>
    cases t with
    | nil =>
      have h1 := jw_le_len h
      rw [arrChars, jwL, jwL]
      omega
    | cons h2 t2 =>
      have h1 := jw_le_len h
      have h2 := jwL_le_len (.cons h2 t2)
      rw [arrChars, jwL]
      simp only [List.length_append, List.length_cons]
      omega

theorem jwM_le_len (ms : JsonMems) : jwM ms ≤ 2 * (memChars ms).length + 2 := by
  cases ms with
  | nil => simp [jwM, memChars]
  | cons k v t =>
    cases t with
    | nil =>
      have h1 := jw_le_len v
      rw [memChars, jwM, jwM]
      simp only [List.length_append, List.length_cons]
      omega
    | cons k2 v2 t2 =>
      have h1 := jw_le_len v
      have h2 := jwM_le_len (.cons k2 v2 t2)
      rw [memChars, jwM]
      simp only [List.length_append, List.length_cons]
      omega

end

/-- Round-trip law for the modelled JSON serializer and parser. -/
theorem jsonParse_stringify (v : Json) : jsonParse (jsonStringify v) = some v := by
  unfold jsonParse jsonStringify
  have hdata : (String.mk (jsonChars v)).data = jsonChars v := rfl
  rw [hdata]
  have h := pVal_rt v (2 * (jsonChars v).length + 2) []
    (le_trans (jw_le_len v) (by omega)) (by simp [noDigitHead])
  rw [List.append_nil] at h
  rw [h]

end AuthApi

namespace AuthApi

/-! ## Store-model lemmas -/

theorem kvtGet_del_self (kv : KVT) (k : String) : kvtGet (kvtDel kv k) k = none := by
  induction kv with
  | nil => rfl
  | cons e rest ih =>
    obtain ⟨k', v, t⟩ := e
    by_cases h : k' = k
    · simp [kvtDel, h, ih]
    · simp [kvtDel, kvtGet, h, ih]

theorem kvtGet_setex_self (kv : KVT) (k : String) (ttl : Nat) (v : String) :
    kvtGet (kvtSetex kv k ttl v) k = some v := by
  simp [kvtSetex, kvtGet]

theorem kvcGet_set_self (kv : KVC) (k v : String) : kvcGet (kvcSet kv k v) k = some v := by
  simp [kvcSet, kvcGet]

/-! ## `deleteByPattern` over the chunked-scan store model -/

theorem string_mk_length (l : List Char) : (String.mk l).length = l.length := rfl

theorem mkCursor_ne_zero (n : Nat) (h : 2 ≤ n) : mkCursor n ≠ "0" := by
  intro heq
  have := congrArg String.length heq
  rw [mkCursor, string_mk_length, List.length_replicate] at this
  simp [String.length] at this
  omega

theorem cursorIdx_mkCursor (n : Nat) (h : 2 ≤ n) : cursorIdx (mkCursor n) = n := by
  rw [cursorIdx, if_neg (mkCursor_ne_zero n h), mkCursor, string_mk_length,
    List.length_replicate]

theorem scanCount_append (a b : List StoreCall) :
    scanCount (a ++ b) = scanCount a + scanCount b := by
  simp [scanCount, List.countP_append]

theorem dbpLoop_chunks (matching : List String) (fp : String) :
    ∀ (fuel i : Nat) (c : String), cursorIdx c = i → i ≤ matching.length →
    matching.length - i + 100 ≤ fuel * 100 →
    ∃ tr, dbpLoop (scanChunks matching) fp fuel c = some (matching.length - i, tr) ∧
      scanCount tr = max 1 ((matching.length - i + 99) / 100) ∧
      (∀ ks, StoreCall.del ks ∈ tr → ks ≠ []) ∧
      (∀ ks, StoreCall.del ks ∈ tr → ∀ k ∈ ks, k ∈ matching) ∧
      (∀ cur pat cnt, StoreCall.scan cur pat cnt ∈ tr → pat = fp ∧ cnt = 100) := by
  intro fuel
  induction fuel with
  | zero => intro i c _ _ hfuel; omega
  | succ f ih =>
    intro i c hc hi hfuel
    set N := matching.length with hN
    by_cases hend : N ≤ i + 100
    · -- last iteration: the store reports cursor "0" with this chunk
      have hstep : scanChunks matching c = ("0", (matching.drop i).take 100) := by
        rw [scanChunks]
        simp [hc, hend, hN]
      have hlen : ((matching.drop i).take 100).length = N - i := by
        simp [List.length_take, List.length_drop]
        omega
      refine ⟨StoreCall.scan c fp 100 ::
        (if ((matching.drop i).take 100).isEmpty then [] else [StoreCall.del ((matching.drop i).take 100)]), ?_, ?_, ?_, ?_, ?_⟩
      · rw [dbpLoop, hstep]
        simp [hlen]
      · by_cases hemp : ((matching.drop i).take 100).isEmpty
        · simp [hemp, scanCount, List.countP_cons]
          rw [List.isEmpty_iff_length_eq_zero] at hemp
          rw [hlen] at hemp
          omega
        · simp [hemp, scanCount, List.countP_cons]
          rw [List.isEmpty_iff_length_eq_zero, hlen] at hemp
          omega
      · -- no DEL with an empty key list
        intro ks hks
        by_cases hemp : ((matching.drop i).take 100).isEmpty
        · simp [hemp] at hks
        · simp [hemp] at hks
          subst hks
          intro hnil
          rw [hnil] at hemp
          simp at hemp
      · -- DEL keys are scan results
        intro ks hks k hk
        by_cases hemp : ((matching.drop i).take 100).isEmpty
        · simp [hemp] at hks
        · simp [hemp] at hks
          subst hks
          exact List.drop_subset i matching (List.take_subset 100 (matching.drop i) hk)
      · -- SCAN calls carry the full pattern and COUNT 100
        intro cur pat cnt hscan
        by_cases hemp : ((matching.drop i).take 100).isEmpty <;> simp [hemp] at hscan
        · exact ⟨hscan.2.1, hscan.2.2⟩
        · exact ⟨hscan.2.1, hscan.2.2⟩

    · -- more chunks remain: recurse with the advanced cursor
      have h2le : 2 ≤ i + 100 := by omega
      have hstep : scanChunks matching c = (mkCursor (i + 100), (matching.drop i).take 100) := by
        rw [scanChunks]
        simp [hc, hend, hN]
      have hlen : ((matching.drop i).take 100).length = 100 := by
        simp [List.length_take, List.length_drop]
        omega
      have hne : ¬ ((matching.drop i).take 100).isEmpty := by
        rw [List.isEmpty_iff_length_eq_zero, hlen]
        omega
      obtain ⟨tr, htr, hsc, hdel1, hdel2, hscan⟩ :=
        ih (i + 100) (mkCursor (i + 100)) (cursorIdx_mkCursor _ h2le) (by omega) (by omega)
      refine ⟨(StoreCall.scan c fp 100 :: [StoreCall.del ((matching.drop i).take 100)]) ++ tr,
        ?_, ?_, ?_, ?_, ?_⟩
      · rw [dbpLoop, hstep]
        simp only [hne, if_false, ite_false, Bool.false_eq_true]
        rw [if_neg (mkCursor_ne_zero _ h2le), htr]
        simp
        omega
      · rw [scanCount_append, hsc]
        have h1 : scanCount (StoreCall.scan c fp 100 :: [StoreCall.del ((matching.drop i).take 100)]) = 1 := by
          simp [scanCount, List.countP_cons]
        rw [h1]
        omega
      · intro ks hks
        rcases List.mem_append.mp hks with hmem | hmem
        · simp at hmem
          subst hmem
          intro hnil
          rw [hnil] at hne
          simp at hne
        · exact hdel1 ks hmem
      · intro ks hks k hk
        rcases List.mem_append.mp hks with hmem | hmem
        · simp at hmem
          subst hmem
          exact List.drop_subset i matching (List.take_subset 100 (matching.drop i) hk)
        · exact hdel2 ks hmem k hk
      · intro cur pat cnt hscan2
        rcases List.mem_append.mp hscan2 with hmem | hmem
        · simp at hmem
          exact ⟨hmem.2.1, hmem.2.2⟩
        · exact hscan cur pat cnt hmem

end AuthApi

namespace AuthApi

/-! ## Turnstile verifier: helper lemmas -/

theorem tsApiPhase_path (faults : TsFaults) (fetchOut : FetchOutcome) (kv : KVT) (key : String) :
    (tsApiPhase faults fetchOut kv key).path ≠ .bypass ∧
    (tsApiPhase faults fetchOut kv key).remoteCalls = 1 := by
  cases fetchOut with
  | networkError => simp [tsApiPhase]
  | httpError st => simp [tsApiPhase]
  | bodyNotJson => simp [tsApiPhase]
  | body r =>
    by_cases hs : r.success = some true
    · cases hsf : faults.setexFail <;> simp [tsApiPhase, hs, hsf]
    · simp [tsApiPhase, hs]

theorem tsApiPhase_success_value (faults : TsFaults) (fetchOut : FetchOutcome)
    (kv : KVT) (key : String)
    (h : (tsApiPhase faults fetchOut kv key).path = .apiSuccess) :
    (tsApiPhase faults fetchOut kv key).value = true := by
  cases fetchOut with
  | networkError => simp [tsApiPhase] at h
  | httpError st => simp [tsApiPhase] at h
  | bodyNotJson => simp [tsApiPhase] at h
  | body r =>
    by_cases hs : r.success = some true
    · cases hsf : faults.setexFail <;> simp [tsApiPhase, hs, hsf]
    · simp [tsApiPhase, hs] at h

theorem tsApiPhase_proj (f f' : TsFaults) (fetchOut : FetchOutcome)
    (kv kv' : KVT) (key key' : String) (hsf : f.setexFail = f'.setexFail) :
    (tsApiPhase f fetchOut kv key).value = (tsApiPhase f' fetchOut kv' key').value ∧
    (tsApiPhase f fetchOut kv key).remoteCalls = (tsApiPhase f' fetchOut kv' key').remoteCalls ∧
    (tsApiPhase f fetchOut kv key).path = (tsApiPhase f' fetchOut kv' key').path := by
  cases fetchOut with
  | networkError => simp [tsApiPhase]
  | httpError st => simp [tsApiPhase]
  | bodyNotJson => simp [tsApiPhase]
  | body r =>
    by_cases hs : r.success = some true
    · cases hsf' : f'.setexFail <;> rw [hsf'] at hsf <;> simp [tsApiPhase, hs, hsf, hsf']
    · simp [tsApiPhase, hs]

theorem tsApiPhase_fail_kv (faults : TsFaults) (fetchOut : FetchOutcome)
    (kv : KVT) (key : String)
    (h : ∀ r, fetchOut = .body r → r.success ≠ some true) :
    (tsApiPhase faults fetchOut kv key).kv = kv ∧
    (tsApiPhase faults fetchOut kv key).value = false := by
  cases fetchOut with
  | networkError => simp [tsApiPhase]
  | httpError st => simp [tsApiPhase]
  | bodyNotJson => simp [tsApiPhase]
  | body r => simp [tsApiPhase, h r rfl]

theorem tsApiPhase_success_write (fetchOut : FetchOutcome) (r : TurnstileResponse)
    (kv : KVT) (key : String) (hfo : fetchOut = .body r) (hs : r.success = some true) :
    tsApiPhase ⟨none, none, none⟩ fetchOut kv key
      = ⟨true, kvtSetex kv key TURNSTILE_CACHE_TTL "true", 1, .apiSuccess⟩ := by
  subst hfo
  simp [tsApiPhase, hs]

/-- Reduction of `verifyTurnstileToken` for an enabled configuration with
a configured secret, a non-empty string token, and no applicable bypass:
the call is decided by the cache phase and, failing that, the API phase. -/
theorem verify_std (cfg : TsConfig) (hash : String → String) (faults : TsFaults)
    (fetchOut : FetchOutcome) (kv : KVT) (s : String) (remoteip : Option String)
    (key : String)
    (hen : cfg.turnstileEnabled = some "true")
    (hsec : truthy cfg.turnstileSecretKey = true)
    (hs : s ≠ "")
    (hnotby : ¬ (cfg.nodeEnv ≠ some "production" ∧ truthy cfg.turnstileBypassToken = true ∧
      cfg.turnstileBypassToken = some s))
    (hkey : key = generateCacheKey hash s (jsOrDefault remoteip "unknown")) :
    verifyTurnstileToken cfg hash faults fetchOut kv (.str s) remoteip =
      (match faults.getFail with
       | some _ => .ok (tsApiPhase faults fetchOut kv key)
       | none =>
         match kvtGet kv key with
         | none => .ok (tsApiPhase faults fetchOut kv key)
         | some cv =>
           match faults.delFail with
           | some _ => .ok (tsApiPhase faults fetchOut kv key)
           | none => .ok ⟨cv == "true", kvtDel kv key, 0, .cacheHit⟩) := by
  subst hkey
  unfold verifyTurnstileToken
  rw [if_neg (by simp [hen]), if_neg (by simp [hsec])]
  simp only []
  rw [if_neg hs, if_neg hnotby]
  rcases hgf : faults.getFail with _ | e
  · rcases hkv : kvtGet kv (generateCacheKey hash s (jsOrDefault remoteip "unknown")) with _ | cv
    · simp [hgf, hkv]
    · rcases hdf : faults.delFail with _ | e2 <;> simp [hgf, hkv, hdf]
  · simp [hgf]

end AuthApi

namespace AuthApi

/-- Claim C1: the bypass short-circuit of `verifyTurnstileToken` (return
`true` with no remote call) happens only when `NODE_ENV` is not
`"production"`, a bypass token is configured (truthy), and the presented
token equals it; consequently in a production-equivalent environment no
call ever returns through the bypass path, whatever the configuration. -/
theorem claim1_bypass_only_nonproduction (cfg : TsConfig) (hash : String → String)
    (faults : TsFaults) (fetchOut : FetchOutcome) (kv : KVT) (token : TokenArg)
    (remoteip : Option String) (out : VOut)
    (h : verifyTurnstileToken cfg hash faults fetchOut kv token remoteip = .ok out) :
    (out.path = .bypass →
      cfg.nodeEnv ≠ some "production" ∧ truthy cfg.turnstileBypassToken = true ∧
      (∃ s, token = .str s ∧ cfg.turnstileBypassToken = some s) ∧
      out.value = true ∧ out.remoteCalls = 0) ∧
    (cfg.nodeEnv = some "production" → out.path ≠ .bypass) := by
  unfold verifyTurnstileToken at h
  by_cases h1 : cfg.turnstileEnabled ≠ some "true"
  · rw [if_pos h1] at h
    cases h
    simp
  · rw [if_neg h1] at h
    by_cases h2 : truthy cfg.turnstileSecretKey = false
    · rw [if_pos h2] at h
      cases h
      simp
    · rw [if_neg h2] at h
      rcases token with ⟨s⟩ | _
      all_goals simp only [] at h
      · by_cases h3 : s = ""
        · simp only [h3, if_pos] at h
          simp at h
          cases h
          simp
        · rw [if_neg h3] at h
          by_cases h4 : cfg.nodeEnv ≠ some "production" ∧ truthy cfg.turnstileBypassToken = true ∧
              cfg.turnstileBypassToken = some s
          · rw [if_pos h4] at h
            cases h
            refine ⟨fun _ => ⟨h4.1, h4.2.1, ⟨s, rfl, h4.2.2⟩, rfl, rfl⟩, fun hprod _ => h4.1 hprod⟩
          · rw [if_neg h4] at h
            rcases hgf : faults.getFail with _ | e
            · rcases hkv : kvtGet kv (generateCacheKey hash s (jsOrDefault remoteip "unknown"))
                  with _ | cv
              · simp only [hgf, hkv] at h
                cases h
                have := tsApiPhase_path faults fetchOut kv
                  (generateCacheKey hash s (jsOrDefault remoteip "unknown"))
                exact ⟨fun hp => absurd hp this.1, fun _ => this.1⟩
              · rcases hdf : faults.delFail with _ | e2
                · simp only [hgf, hkv, hdf] at h
                  cases h
                  simp
                · simp only [hgf, hkv, hdf] at h
                  cases h
                  have := tsApiPhase_path faults fetchOut kv
                    (generateCacheKey hash s (jsOrDefault remoteip "unknown"))
                  exact ⟨fun hp => absurd hp this.1, fun _ => this.1⟩
            · simp only [hgf] at h
              cases h
              have := tsApiPhase_path faults fetchOut kv
                (generateCacheKey hash s (jsOrDefault remoteip "unknown"))
              exact ⟨fun hp => absurd hp this.1, fun _ => this.1⟩
      · cases h
        simp

/-- Witness for C1 at a concrete production configuration that has a
bypass token configured and is presented with exactly that token: the
call goes through the remote API path, not the bypass. -/
theorem claim1_witness :
    ((⟨true, [("turnstile:H:unknown", "true", 600)], 1, .apiSuccess⟩ : VOut).path = .bypass →
      (⟨some "true", some "sk", some "production", some "byp"⟩ : TsConfig).nodeEnv ≠ some "production" ∧
      truthy (⟨some "true", some "sk", some "production", some "byp"⟩ : TsConfig).turnstileBypassToken = true ∧
      (∃ s, (.str "byp" : TokenArg) = .str s ∧
        (⟨some "true", some "sk", some "production", some "byp"⟩ : TsConfig).turnstileBypassToken = some s) ∧
      (⟨true, [("turnstile:H:unknown", "true", 600)], 1, .apiSuccess⟩ : VOut).value = true ∧
      (⟨true, [("turnstile:H:unknown", "true", 600)], 1, .apiSuccess⟩ : VOut).remoteCalls = 0) ∧
    ((⟨some "true", some "sk", some "production", some "byp"⟩ : TsConfig).nodeEnv = some "production" →
      (⟨true, [("turnstile:H:unknown", "true", 600)], 1, .apiSuccess⟩ : VOut).path ≠ .bypass) :=
  claim1_bypass_only_nonproduction ⟨some "true", some "sk", some "production", some "byp"⟩
    (fun _ => "H") ⟨none, none, none⟩ (.body ⟨some true, none⟩) [] (.str "byp") none
    ⟨true, [("turnstile:H:unknown", "true", 600)], 1, .apiSuccess⟩ (by decide)

/-- Claim C3 counterexample: with the subsystem disabled
(`TURNSTILE_ENABLED` unset to `"true"`) an empty-string token resolves
`true`, so "returns false for every state of the enabled flag" is false. -/
theorem claim3_counterexample :
    verifyTurnstileToken ⟨some "false", none, none, none⟩ (fun _ => "")
      ⟨none, none, none⟩ .networkError [] (.str "") none
      = .ok ⟨true, [], 0, .disabled⟩ := by decide

/-- Claim C3 as amended: when the subsystem is enabled
(`TURNSTILE_ENABLED = "true"`), an empty-string or non-string token
resolves `false` with no store change and no remote call, for every
other configuration, fault, fetch and store state. -/
theorem claim3_empty_token_invalid (cfg : TsConfig) (hash : String → String)
    (faults : TsFaults) (fetchOut : FetchOutcome) (kv : KVT) (token : TokenArg)
    (remoteip : Option String)
    (hen : cfg.turnstileEnabled = some "true")
    (htok : token = .str "" ∨ token = .nonString) :
    ∃ out, verifyTurnstileToken cfg hash faults fetchOut kv token remoteip = .ok out ∧
      out.value = false ∧ out.kv = kv ∧ out.remoteCalls = 0 := by
  unfold verifyTurnstileToken
  rw [if_neg (by simp [hen])]
  by_cases h2 : truthy cfg.turnstileSecretKey = false
  · rw [if_pos h2]
    exact ⟨_, rfl, rfl, rfl, rfl⟩
  · rw [if_neg h2]
    rcases htok with rfl | rfl
    · simp only [if_true]
      exact ⟨_, rfl, rfl, rfl, rfl⟩
    · exact ⟨_, rfl, rfl, rfl, rfl⟩

/-- Witness for amended C3: enabled configuration with secret present,
empty token. -/
theorem claim3_witness :
    ∃ out, verifyTurnstileToken ⟨some "true", some "sk", some "production", none⟩
        (fun _ => "H") ⟨none, none, none⟩ (.body ⟨some true, none⟩) [] (.str "") none
        = .ok out ∧ out.value = false ∧ out.kv = [] ∧ out.remoteCalls = 0 :=
  claim3_empty_token_invalid ⟨some "true", some "sk", some "production", none⟩
    (fun _ => "H") ⟨none, none, none⟩ (.body ⟨some true, none⟩) [] (.str "") none
    rfl (Or.inl rfl)

end AuthApi

namespace AuthApi

/-- Every call of the verifier resolves (`Except.ok`), and a result on
the `apiSuccess` path carries `true`. -/
theorem verify_shape (cfg : TsConfig) (hash : String → String) (faults : TsFaults)
    (fetchOut : FetchOutcome) (kv : KVT) (token : TokenArg) (remoteip : Option String) :
    ∃ out, verifyTurnstileToken cfg hash faults fetchOut kv token remoteip = .ok out ∧
      (out.path = .apiSuccess → out.value = true) := by
  unfold verifyTurnstileToken
  by_cases h1 : cfg.turnstileEnabled ≠ some "true"
  · rw [if_pos h1]
    exact ⟨_, rfl, by simp⟩
  · rw [if_neg h1]
    by_cases h2 : truthy cfg.turnstileSecretKey = false
    · rw [if_pos h2]
      exact ⟨_, rfl, by simp⟩
    · rw [if_neg h2]
      rcases token with ⟨s⟩ | _
      · simp only []
        by_cases h3 : s = ""
        · subst h3
          rw [if_pos rfl]
          exact ⟨_, rfl, by simp⟩
        · rw [if_neg h3]
          by_cases h4 : cfg.nodeEnv ≠ some "production" ∧ truthy cfg.turnstileBypassToken = true ∧
              cfg.turnstileBypassToken = some s
          · rw [if_pos h4]
            exact ⟨_, rfl, by simp⟩
          · rw [if_neg h4]
            rcases hgf : faults.getFail with _ | e
            · rcases hkv : kvtGet kv (generateCacheKey hash s (jsOrDefault remoteip "unknown"))
                  with _ | cv
              · simp only [hgf, hkv]
                exact ⟨_, rfl, tsApiPhase_success_value _ _ _ _⟩
              · rcases hdf : faults.delFail with _ | e2
                · simp only [hgf, hkv, hdf]
                  exact ⟨_, rfl, by simp⟩
                · simp only [hgf, hkv, hdf]
                  exact ⟨_, rfl, tsApiPhase_success_value _ _ _ _⟩
            · simp only [hgf]
              exact ⟨_, rfl, tsApiPhase_success_value _ _ _ _⟩
      · exact ⟨_, rfl, by simp⟩

/-- Claim C4: `verifyTurnstileToken` never throws — for every store
fault, fetch outcome and input it resolves to an `ok` boolean; a
cache-read fault is non-fatal and the caller-visible result (value,
remote-call count, path) is exactly that of a cache miss; and a
cache-write fault after a successful remote verification still yields
`true`. -/
theorem claim4_error_containment (cfg : TsConfig) (hash : String → String)
    (faults : TsFaults) (fetchOut : FetchOutcome) (kv : KVT) (token : TokenArg)
    (remoteip : Option String) :
    (∃ out, verifyTurnstileToken cfg hash faults fetchOut kv token remoteip = .ok out) ∧
    (faults.getFail ≠ none →
      vproj (verifyTurnstileToken cfg hash faults fetchOut kv token remoteip) =
      vproj (verifyTurnstileToken cfg hash ⟨none, none, faults.setexFail⟩ fetchOut [] token remoteip)) ∧
    (∀ out, verifyTurnstileToken cfg hash faults fetchOut kv token remoteip = .ok out →
      out.path = .apiSuccess → out.value = true) := by
  obtain ⟨out, hout, hsucc⟩ := verify_shape cfg hash faults fetchOut kv token remoteip
  refine ⟨⟨out, hout⟩, ?_, ?_⟩
  · intro hget
    rcases hgf : faults.getFail with _ | e
    · rw [hgf] at hget
      exact absurd rfl hget
    · unfold verifyTurnstileToken
      by_cases h1 : cfg.turnstileEnabled ≠ some "true"
      · rw [if_pos h1, if_pos h1]
        rfl
      · rw [if_neg h1, if_neg h1]
        by_cases h2 : truthy cfg.turnstileSecretKey = false
        · rw [if_pos h2, if_pos h2]
          rfl
        · rw [if_neg h2, if_neg h2]
          rcases token with ⟨s⟩ | _
          · simp only []
            by_cases h3 : s = ""
            · subst h3
              rw [if_pos rfl, if_pos rfl]
              rfl
            · rw [if_neg h3, if_neg h3]
              by_cases h4 : cfg.nodeEnv ≠ some "production" ∧
                  truthy cfg.turnstileBypassToken = true ∧ cfg.turnstileBypassToken = some s
              · rw [if_pos h4, if_pos h4]
                rfl
              · rw [if_neg h4, if_neg h4]
                simp only [hgf]
                have hkv0 : kvtGet [] (generateCacheKey hash s (jsOrDefault remoteip "unknown"))
                    = none := rfl
                simp only [hkv0]
                obtain ⟨hv, hc, hp⟩ := tsApiPhase_proj faults ⟨none, none, faults.setexFail⟩
                  fetchOut kv [] (generateCacheKey hash s (jsOrDefault remoteip "unknown"))
                  (generateCacheKey hash s (jsOrDefault remoteip "unknown")) rfl
                simp [vproj, hv, hc, hp]
          · rfl
  · intro out' hout'
    rw [hout] at hout'
    cases hout'
    exact hsucc

/-- Witness for C4: a cache-read fault (`getFail = some 3`) on a store
that actually holds the key behaves, to the caller, exactly like a cache
miss on an empty store. -/
theorem claim4_witness :
    vproj (verifyTurnstileToken ⟨some "true", some "sk", some "production", none⟩
      (fun _ => "H") ⟨some 3, none, none⟩ .networkError
      [("turnstile:H:unknown", "true", 600)] (.str "tok") none) =
    vproj (verifyTurnstileToken ⟨some "true", some "sk", some "production", none⟩
      (fun _ => "H") ⟨none, none, none⟩ .networkError [] (.str "tok") none) :=
  (claim4_error_containment ⟨some "true", some "sk", some "production", none⟩
    (fun _ => "H") ⟨some 3, none, none⟩ .networkError
    [("turnstile:H:unknown", "true", 600)] (.str "tok") none).2.1 (by decide)

end AuthApi

namespace AuthApi

/-- Claim C2: with no faults, a successful remote verification writes
`"true"` under the derived key with TTL exactly 600; a second call
finding the entry returns the cached verdict with no remote call and
deletes the entry; a third call misses and calls the remote API again;
and no failing fetch outcome ever changes the store. -/
theorem claim2_single_use_cache (cfg : TsConfig) (hash : String → String) (s : String)
    (remoteip : Option String) (kv0 : KVT) (r : TurnstileResponse) (key : String)
    (hen : cfg.turnstileEnabled = some "true")
    (hsec : truthy cfg.turnstileSecretKey = true)
    (hby : cfg.turnstileBypassToken = none)
    (hs : s ≠ "")
    (hkey : key = generateCacheKey hash s (jsOrDefault remoteip "unknown"))
    (hmiss : kvtGet kv0 key = none)
    (hsucc : r.success = some true) :
    TURNSTILE_CACHE_TTL = 600 ∧
    verifyTurnstileToken cfg hash ⟨none, none, none⟩ (.body r) kv0 (.str s) remoteip
      = .ok ⟨true, kvtSetex kv0 key TURNSTILE_CACHE_TTL "true", 1, .apiSuccess⟩ ∧
    (∀ fo2, verifyTurnstileToken cfg hash ⟨none, none, none⟩ fo2
        (kvtSetex kv0 key TURNSTILE_CACHE_TTL "true") (.str s) remoteip
      = .ok ⟨true, kvtDel (kvtSetex kv0 key TURNSTILE_CACHE_TTL "true") key, 0, .cacheHit⟩) ∧
    kvtGet (kvtDel (kvtSetex kv0 key TURNSTILE_CACHE_TTL "true") key) key = none ∧
    verifyTurnstileToken cfg hash ⟨none, none, none⟩ (.body r)
        (kvtDel (kvtSetex kv0 key TURNSTILE_CACHE_TTL "true") key) (.str s) remoteip
      = .ok ⟨true, kvtSetex (kvtDel (kvtSetex kv0 key TURNSTILE_CACHE_TTL "true") key)
          key TURNSTILE_CACHE_TTL "true", 1, .apiSuccess⟩ ∧
    (∀ (fo : FetchOutcome) (kv : KVT), kvtGet kv key = none →
      (∀ r2, fo = .body r2 → r2.success ≠ some true) →
      ∀ out, verifyTurnstileToken cfg hash ⟨none, none, none⟩ fo kv (.str s) remoteip
        = .ok out → out.kv = kv ∧ out.value = false) := by
  have hnotby : ¬ (cfg.nodeEnv ≠ some "production" ∧ truthy cfg.turnstileBypassToken = true ∧
      cfg.turnstileBypassToken = some s) := by
    rw [hby]
    rintro ⟨_, h2, _⟩
    simp [truthy] at h2
  refine ⟨rfl, ?_, ?_, ?_, ?_, ?_⟩
  · rw [verify_std cfg hash ⟨none, none, none⟩ (.body r) kv0 s remoteip key hen hsec hs hnotby hkey]
    simp only [hmiss]
    rw [tsApiPhase_success_write (.body r) r kv0 key rfl hsucc]
  · intro fo2
    rw [verify_std cfg hash ⟨none, none, none⟩ fo2 (kvtSetex kv0 key TURNSTILE_CACHE_TTL "true")
      s remoteip key hen hsec hs hnotby hkey]
    simp only [kvtGet_setex_self]
    simp
  · exact kvtGet_del_self _ _
  · rw [verify_std cfg hash ⟨none, none, none⟩ (.body r)
      (kvtDel (kvtSetex kv0 key TURNSTILE_CACHE_TTL "true") key) s remoteip key hen hsec hs
      hnotby hkey]
    simp only [kvtGet_del_self]
    rw [tsApiPhase_success_write (.body r) r _ key rfl hsucc]
  · intro fo kv hkmiss hfail out hout
    rw [verify_std cfg hash ⟨none, none, none⟩ fo kv s remoteip key hen hsec hs hnotby hkey] at hout
    simp only [hkmiss] at hout
    cases hout
    exact tsApiPhase_fail_kv ⟨none, none, none⟩ fo kv key hfail

/-- Witness for C2 at a concrete enabled configuration, token `"tok"`,
hash constantly `"H"`, client IP defaulted to `"unknown"`. -/
theorem claim2_witness :
    TURNSTILE_CACHE_TTL = 600 ∧
    verifyTurnstileToken ⟨some "true", some "sk", some "production", none⟩ (fun _ => "H")
        ⟨none, none, none⟩ (.body ⟨some true, none⟩) [] (.str "tok") none
      = .ok ⟨true, kvtSetex [] "turnstile:H:unknown" TURNSTILE_CACHE_TTL "true", 1, .apiSuccess⟩ ∧
    (∀ fo2, verifyTurnstileToken ⟨some "true", some "sk", some "production", none⟩ (fun _ => "H")
        ⟨none, none, none⟩ fo2 (kvtSetex [] "turnstile:H:unknown" TURNSTILE_CACHE_TTL "true")
        (.str "tok") none
      = .ok ⟨true, kvtDel (kvtSetex [] "turnstile:H:unknown" TURNSTILE_CACHE_TTL "true")
          "turnstile:H:unknown", 0, .cacheHit⟩) ∧
    kvtGet (kvtDel (kvtSetex [] "turnstile:H:unknown" TURNSTILE_CACHE_TTL "true")
        "turnstile:H:unknown") "turnstile:H:unknown" = none ∧
    verifyTurnstileToken ⟨some "true", some "sk", some "production", none⟩ (fun _ => "H")
        ⟨none, none, none⟩ (.body ⟨some true, none⟩)
        (kvtDel (kvtSetex [] "turnstile:H:unknown" TURNSTILE_CACHE_TTL "true")
          "turnstile:H:unknown") (.str "tok") none
      = .ok ⟨true, kvtSetex (kvtDel (kvtSetex [] "turnstile:H:unknown" TURNSTILE_CACHE_TTL "true")
          "turnstile:H:unknown") "turnstile:H:unknown" TURNSTILE_CACHE_TTL "true", 1, .apiSuccess⟩ ∧
    (∀ (fo : FetchOutcome) (kv : KVT), kvtGet kv "turnstile:H:unknown" = none →
      (∀ r2, fo = .body r2 → r2.success ≠ some true) →
      ∀ out, verifyTurnstileToken ⟨some "true", some "sk", some "production", none⟩ (fun _ => "H")
          ⟨none, none, none⟩ fo kv (.str "tok") none = .ok out → out.kv = kv ∧ out.value = false) :=
  claim2_single_use_cache ⟨some "true", some "sk", some "production", none⟩ (fun _ => "H")
    "tok" none [] ⟨some true, none⟩ "turnstile:H:unknown" rfl (by decide) rfl (by decide)
    (by decide) rfl rfl

/-- Claim C10 (implicit): the Turnstile cache key depends only on the
first 32 characters of the token and the client IP; consequently a
verdict cached for `t1` is consumed and returned as valid for a later
call presenting a token `t2` with the same 32-character head from the
same IP. -/
theorem claim10_key_token_head (cfg : TsConfig) (hash : String → String) (t1 t2 : String)
    (remoteip : Option String) (kv0 : KVT) (r : TurnstileResponse) (key : String)
    (hpre : t1.take 32 = t2.take 32)
    (hen : cfg.turnstileEnabled = some "true")
    (hsec : truthy cfg.turnstileSecretKey = true)
    (hby : cfg.turnstileBypassToken = none)
    (ht2 : t2 ≠ "")
    (hkey : key = generateCacheKey hash t1 (jsOrDefault remoteip "unknown"))
    (hmiss : kvtGet kv0 key = none)
    (hsucc : r.success = some true)
    (ht1 : t1 ≠ "") :
    (∀ ip, generateCacheKey hash t1 ip = generateCacheKey hash t2 ip) ∧
    verifyTurnstileToken cfg hash ⟨none, none, none⟩ (.body r) kv0 (.str t1) remoteip
      = .ok ⟨true, kvtSetex kv0 key TURNSTILE_CACHE_TTL "true", 1, .apiSuccess⟩ ∧
    (∀ fo2, verifyTurnstileToken cfg hash ⟨none, none, none⟩ fo2
        (kvtSetex kv0 key TURNSTILE_CACHE_TTL "true") (.str t2) remoteip
      = .ok ⟨true, kvtDel (kvtSetex kv0 key TURNSTILE_CACHE_TTL "true") key, 0, .cacheHit⟩) := by
  have hkeq : ∀ ip, generateCacheKey hash t1 ip = generateCacheKey hash t2 ip := by
    intro ip
    unfold generateCacheKey
    rw [hpre]
  have hnotby1 : ¬ (cfg.nodeEnv ≠ some "production" ∧ truthy cfg.turnstileBypassToken = true ∧
      cfg.turnstileBypassToken = some t1) := by
    rw [hby]
    rintro ⟨_, h2, _⟩
    simp [truthy] at h2
  have hnotby2 : ¬ (cfg.nodeEnv ≠ some "production" ∧ truthy cfg.turnstileBypassToken = true ∧
      cfg.turnstileBypassToken = some t2) := by
    rw [hby]
    rintro ⟨_, h2, _⟩
    simp [truthy] at h2
  refine ⟨hkeq, ?_, ?_⟩
  · rw [verify_std cfg hash ⟨none, none, none⟩ (.body r) kv0 t1 remoteip key hen hsec ht1
      hnotby1 hkey]
    simp only [hmiss]
    rw [tsApiPhase_success_write (.body r) r kv0 key rfl hsucc]
  · intro fo2
    rw [verify_std cfg hash ⟨none, none, none⟩ fo2 (kvtSetex kv0 key TURNSTILE_CACHE_TTL "true")
      t2 remoteip key hen hsec ht2 hnotby2 (by rw [hkey, hkeq])]
    simp only [kvtGet_setex_self]
    simp

set_option maxRecDepth 10000 in
/-- Witness for C10: two distinct 33-character tokens sharing their
first 32 characters. -/
theorem claim10_witness :
    (∀ ip, generateCacheKey (fun _ => "H") "aaaaaaaaaaaaaaaaaaaaaaaaaaaaaaaab" ip
      = generateCacheKey (fun _ => "H") "aaaaaaaaaaaaaaaaaaaaaaaaaaaaaaaac" ip) ∧
    verifyTurnstileToken ⟨some "true", some "sk", some "production", none⟩ (fun _ => "H")
        ⟨none, none, none⟩ (.body ⟨some true, none⟩) []
        (.str "aaaaaaaaaaaaaaaaaaaaaaaaaaaaaaaab") none
      = .ok ⟨true, kvtSetex [] "turnstile:H:unknown" TURNSTILE_CACHE_TTL "true", 1, .apiSuccess⟩ ∧
    (∀ fo2, verifyTurnstileToken ⟨some "true", some "sk", some "production", none⟩ (fun _ => "H")
        ⟨none, none, none⟩ fo2 (kvtSetex [] "turnstile:H:unknown" TURNSTILE_CACHE_TTL "true")
        (.str "aaaaaaaaaaaaaaaaaaaaaaaaaaaaaaaac") none
      = .ok ⟨true, kvtDel (kvtSetex [] "turnstile:H:unknown" TURNSTILE_CACHE_TTL "true")
          "turnstile:H:unknown", 0, .cacheHit⟩) :=
  claim10_key_token_head ⟨some "true", some "sk", some "production", none⟩ (fun _ => "H")
    "aaaaaaaaaaaaaaaaaaaaaaaaaaaaaaaab" "aaaaaaaaaaaaaaaaaaaaaaaaaaaaaaaac" none []
    ⟨some true, none⟩ "turnstile:H:unknown" (by decide) rfl (by decide) rfl (by decide)
    (by decide) rfl rfl (by decide)

end AuthApi

namespace AuthApi

theorem truthy_false_iff (x : Option String) : truthy x = false ↔ (x = none ∨ x = some "") := by
  cases x <;> simp [truthy]

/-- Claim C5: the Gate middleware produces exactly one of three
outcomes — pass-through, HTTP 400 with the fixed bad-request body
(exactly when the path is gated, the subsystem is enabled and the token
is missing, the verifier not being reached), or HTTP 403 with the fixed
forbidden body (exactly when the verifier was invoked and returned
false); non-gated paths and gated paths with no token under a disabled
subsystem always pass through. -/
theorem claim5_gate_outcomes (enabled : Option String) (verify : String → Option String → Bool)
    (req : GateReq) (r : GateResult)
    (hr : validateTurnstileToken enabled verify req = r) :
    (r.outcome = .nextCalled ∨
     r.outcome = .responded 400 "Bad Request" "Turnstile verification required" ∨
     r.outcome = .responded 403 "Forbidden" "Turnstile verification failed. Please try again.") ∧
    (r.outcome = .responded 400 "Bad Request" "Turnstile verification required" ↔
      ((req.path = "/sign-up/email" ∨ req.path = "/sign-in/email") ∧ enabled = some "true" ∧
        truthy req.bodyToken = false)) ∧
    (truthy req.bodyToken = false → r.verifierArg = none) ∧
    (r.outcome = .responded 403 "Forbidden" "Turnstile verification failed. Please try again." ↔
      ((req.path = "/sign-up/email" ∨ req.path = "/sign-in/email") ∧
        (∃ t, req.bodyToken = some t ∧ t ≠ "" ∧
          verify t (jsOrOpt req.reqIp req.socketRemoteAddress) = false))) ∧
    (¬ (req.path = "/sign-up/email" ∨ req.path = "/sign-in/email") →
      r.outcome = .nextCalled ∧ r.verifierArg = none) ∧
    ((req.path = "/sign-up/email" ∨ req.path = "/sign-in/email") →
      truthy req.bodyToken = false → enabled ≠ some "true" → r.outcome = .nextCalled) := by
  subst hr
  unfold validateTurnstileToken
  simp only []
  by_cases hg : req.path = "/sign-up/email" ∨ req.path = "/sign-in/email"
  · rw [if_neg (not_not_intro hg)]
    by_cases ht : truthy req.bodyToken = false
    · rw [if_pos ht]
      have h403false : ¬ ∃ t, req.bodyToken = some t ∧ t ≠ "" ∧
          verify t (jsOrOpt req.reqIp req.socketRemoteAddress) = false := by
        rintro ⟨t, hbt2, htne, _⟩
        rw [hbt2] at ht
        simp [truthy] at ht
        exact htne ht
      by_cases he : enabled ≠ some "true"
      · rw [if_pos he]
        refine ⟨Or.inl rfl, ?_, fun _ => rfl, ?_, fun hn => absurd hg hn, fun _ _ _ => rfl⟩
        · constructor
          · intro h; cases h
          · rintro ⟨_, he2, _⟩; exact absurd he2 he
        · constructor
          · intro h; cases h
          · rintro ⟨_, hex⟩; exact absurd hex h403false
      · rw [if_neg he]
        push_neg at he
        refine ⟨Or.inr (Or.inl rfl), ?_, fun _ => rfl, ?_, fun hn => absurd hg hn, ?_⟩
        · constructor
          · intro _; exact ⟨hg, he, ht⟩
          · intro _; rfl
        · constructor
          · intro h; cases h
          · rintro ⟨_, hex⟩; exact absurd hex h403false
        · intro _ _ hne
          exact absurd he hne
    · rcases hbt : req.bodyToken with _ | t
      · rw [hbt] at ht
        simp [truthy] at ht
      · rw [hbt] at ht
        rw [if_neg ht]
        simp only []
        have htne : t ≠ "" := by
          simp [truthy] at ht
          exact ht
        by_cases hv : verify t (jsOrOpt req.reqIp req.socketRemoteAddress) = true
        · rw [if_pos hv]
          refine ⟨Or.inl rfl, ?_, fun hf => absurd hf ht, ?_, fun hn => absurd hg hn,
            fun _ hf _ => absurd hf ht⟩
          · constructor
            · intro h; cases h
            · rintro ⟨_, _, hf⟩; exact absurd hf ht
          · constructor
            · intro h; cases h
            · rintro ⟨_, t', heq, _, hv'⟩
              cases heq
              rw [hv] at hv'
              cases hv'
        · rw [if_neg hv]
          have hv' : verify t (jsOrOpt req.reqIp req.socketRemoteAddress) = false := by
            revert hv
            cases verify t (jsOrOpt req.reqIp req.socketRemoteAddress) <;> simp
          refine ⟨Or.inr (Or.inr rfl), ?_, fun hf => absurd hf ht, ?_, fun hn => absurd hg hn,
            fun _ hf _ => absurd hf ht⟩
          · constructor
            · intro h; cases h
            · rintro ⟨_, _, hf⟩; exact absurd hf ht
          · constructor
            · intro _; exact ⟨hg, t, rfl, htne, hv'⟩
            · intro _; rfl
  · rw [if_pos hg]
    refine ⟨Or.inl rfl, ?_, fun _ => rfl, ?_, fun _ => ⟨rfl, rfl⟩, fun hgg => absurd hgg hg⟩
    · constructor
      · intro h; cases h
      · rintro ⟨hgg, _⟩; exact absurd hgg hg
    · constructor
      · intro h; cases h
      · rintro ⟨hgg, _⟩; exact absurd hgg hg

end AuthApi

namespace AuthApi

/-- Witness for C5: a gated request carrying a token the verifier
rejects yields exactly the 403 outcome. -/
theorem claim5_witness :
    ((⟨.responded 403 "Forbidden" "Turnstile verification failed. Please try again.",
        some ("tok", some "1.2.3.4")⟩ : GateResult).outcome = .nextCalled ∨
     (⟨.responded 403 "Forbidden" "Turnstile verification failed. Please try again.",
        some ("tok", some "1.2.3.4")⟩ : GateResult).outcome
        = .responded 400 "Bad Request" "Turnstile verification required" ∨
     (⟨.responded 403 "Forbidden" "Turnstile verification failed. Please try again.",
        some ("tok", some "1.2.3.4")⟩ : GateResult).outcome
        = .responded 403 "Forbidden" "Turnstile verification failed. Please try again.") ∧
    ((⟨.responded 403 "Forbidden" "Turnstile verification failed. Please try again.",
        some ("tok", some "1.2.3.4")⟩ : GateResult).outcome
        = .responded 400 "Bad Request" "Turnstile verification required" ↔
      (((⟨"/sign-up/email", some "tok", some "1.2.3.4", none⟩ : GateReq).path = "/sign-up/email" ∨
        (⟨"/sign-up/email", some "tok", some "1.2.3.4", none⟩ : GateReq).path = "/sign-in/email") ∧
        (some "true" : Option String) = some "true" ∧
        truthy (⟨"/sign-up/email", some "tok", some "1.2.3.4", none⟩ : GateReq).bodyToken = false)) ∧
    (truthy (⟨"/sign-up/email", some "tok", some "1.2.3.4", none⟩ : GateReq).bodyToken = false →
      (⟨.responded 403 "Forbidden" "Turnstile verification failed. Please try again.",
        some ("tok", some "1.2.3.4")⟩ : GateResult).verifierArg = none) ∧
    ((⟨.responded 403 "Forbidden" "Turnstile verification failed. Please try again.",
        some ("tok", some "1.2.3.4")⟩ : GateResult).outcome
        = .responded 403 "Forbidden" "Turnstile verification failed. Please try again." ↔
      (((⟨"/sign-up/email", some "tok", some "1.2.3.4", none⟩ : GateReq).path = "/sign-up/email" ∨
        (⟨"/sign-up/email", some "tok", some "1.2.3.4", none⟩ : GateReq).path = "/sign-in/email") ∧
        (∃ t, (⟨"/sign-up/email", some "tok", some "1.2.3.4", none⟩ : GateReq).bodyToken = some t ∧
          t ≠ "" ∧ (fun (_ : String) (_ : Option String) => false) t
            (jsOrOpt (⟨"/sign-up/email", some "tok", some "1.2.3.4", none⟩ : GateReq).reqIp
              (⟨"/sign-up/email", some "tok", some "1.2.3.4", none⟩ : GateReq).socketRemoteAddress)
            = false))) ∧
    (¬ ((⟨"/sign-up/email", some "tok", some "1.2.3.4", none⟩ : GateReq).path = "/sign-up/email" ∨
        (⟨"/sign-up/email", some "tok", some "1.2.3.4", none⟩ : GateReq).path = "/sign-in/email") →
      (⟨.responded 403 "Forbidden" "Turnstile verification failed. Please try again.",
        some ("tok", some "1.2.3.4")⟩ : GateResult).outcome = .nextCalled ∧
      (⟨.responded 403 "Forbidden" "Turnstile verification failed. Please try again.",
        some ("tok", some "1.2.3.4")⟩ : GateResult).verifierArg = none) ∧
    (((⟨"/sign-up/email", some "tok", some "1.2.3.4", none⟩ : GateReq).path = "/sign-up/email" ∨
        (⟨"/sign-up/email", some "tok", some "1.2.3.4", none⟩ : GateReq).path = "/sign-in/email") →
      truthy (⟨"/sign-up/email", some "tok", some "1.2.3.4", none⟩ : GateReq).bodyToken = false →
      (some "true" : Option String) ≠ some "true" →
      (⟨.responded 403 "Forbidden" "Turnstile verification failed. Please try again.",
        some ("tok", some "1.2.3.4")⟩ : GateResult).outcome = .nextCalled) :=
  claim5_gate_outcomes (some "true") (fun _ _ => false)
    ⟨"/sign-up/email", some "tok", some "1.2.3.4", none⟩
    ⟨.responded 403 "Forbidden" "Turnstile verification failed. Please try again.",
      some ("tok", some "1.2.3.4")⟩ (by decide)

end AuthApi

namespace AuthApi

/-- Claim C7: `CacheService.get` on a store miss returns `null`,
incrementing only `misses`; on a hit it increments only `hits` and
returns the JSON-parsed value, or the raw string unchanged when the
value is not valid JSON; a store-level error is re-thrown unchanged. -/
theorem claim7_get_metrics_parse (pfx : String) (m : CacheMetrics) (kv : KVC) (key : String) :
    (kvcGet kv (buildKey pfx key) = none →
      cacheGet pfx m kv none key
        = (.ok none, ⟨m.hits, m.misses + 1⟩, [.get (buildKey pfx key)])) ∧
    (∀ s, kvcGet kv (buildKey pfx key) = some s →
      (∀ j, jsonParse s = some j →
        cacheGet pfx m kv none key
          = (.ok (some (.parsed j)), ⟨m.hits + 1, m.misses⟩, [.get (buildKey pfx key)])) ∧
      (jsonParse s = none →
        cacheGet pfx m kv none key
          = (.ok (some (.raw s)), ⟨m.hits + 1, m.misses⟩, [.get (buildKey pfx key)]))) ∧
    (∀ e, cacheGet pfx m kv (some e) key = (.error e, m, [.get (buildKey pfx key)])) := by
  refine ⟨?_, ?_, ?_⟩
  · intro hmiss
    simp [cacheGet, hmiss]
  · intro s hhit
    constructor
    · intro j hj
      simp [cacheGet, hhit, parseFallback, hj]
    · intro hj
      simp [cacheGet, hhit, parseFallback, hj]
  · intro e
    simp [cacheGet]

/-- Witness for C7: a miss, a hit on valid JSON, a hit on a non-JSON
string, and a store error, each at a concrete store. -/
theorem claim7_witness :
    cacheGet "auth:" ⟨0, 0⟩ [] none "k" = (.ok none, ⟨0, 1⟩, [.get "auth:k"]) ∧
    cacheGet "auth:" ⟨0, 0⟩ [("auth:k", "[1]")] none "k"
      = (.ok (some (.parsed (.arr (.cons (.num 1) .nil)))), ⟨1, 0⟩, [.get "auth:k"]) ∧
    cacheGet "auth:" ⟨0, 0⟩ [("auth:k", "oops")] none "k"
      = (.ok (some (.raw "oops")), ⟨1, 0⟩, [.get "auth:k"]) ∧
    cacheGet "auth:" ⟨0, 0⟩ [] (some 7) "k" = (.error 7, ⟨0, 0⟩, [.get "auth:k"]) :=
  ⟨(claim7_get_metrics_parse "auth:" ⟨0, 0⟩ [] "k").1 (by decide),
   ((claim7_get_metrics_parse "auth:" ⟨0, 0⟩ [("auth:k", "[1]")] "k").2.1 "[1]"
      (by decide)).1 (.arr (.cons (.num 1) .nil)) (by decide),
   ((claim7_get_metrics_parse "auth:" ⟨0, 0⟩ [("auth:k", "oops")] "k").2.1 "oops"
      (by decide)).2 (by decide),
   (claim7_get_metrics_parse "auth:" ⟨0, 0⟩ [] "k").2.2 7⟩

/-- Claim C9: round-trip — `set(k, v)` followed by `get(k)` against a
store that echoes what was written returns exactly the value `v`
(deep-equal as JSON), counting one hit. -/
theorem claim9_set_get_roundtrip (pfx : String) (m : CacheMetrics) (kv : KVC) (key : String)
    (v : Json) (ttl : Option Int) :
    cacheGet pfx m (cacheSet pfx kv none key v ttl).2.1 none key
      = (.ok (some (.parsed v)), ⟨m.hits + 1, m.misses⟩, [.get (buildKey pfx key)]) := by
  simp [cacheSet, cacheGet, kvcGet_set_self, parseFallback, jsonParse_stringify]

/-- Claim C6: prefixing is total — every key or pattern any cache
operation passes to the store is `prefix + logical key`; for
`deleteByPattern`, the SCAN pattern is prefixed, and the DEL'd keys are
store keys matching the prefixed pattern (hence prefixed, given the
store returns only matching keys). -/
theorem claim6_prefixing_total (pfx : String) (m : CacheMetrics) (kv : KVC) (fail : Option Nat)
    (key : String) (value : Json) (ttl : Option Int) (keys : List String)
    (entries : List MSetEntry) (pat : String) (matching : List String)
    (hm : ∀ k ∈ matching, ∃ lk, k = buildKey pfx lk) :
    (cacheGet pfx m kv fail key).2.2 = [.get (buildKey pfx key)] ∧
    (cacheSet pfx kv fail key value ttl).2.2
      = [.set (buildKey pfx key) (jsonStringify value) (normTtl ttl)] ∧
    (cacheDelete pfx kv fail key).2.2 = [.del [buildKey pfx key]] ∧
    (cacheMget pfx m kv fail keys).2.2
      = (if keys.isEmpty then [] else [.mget (keys.map (buildKey pfx))]) ∧
    (cacheMset pfx kv fail entries).2.2
      = (if entries.isEmpty then [] else
          entries.map (fun e => StoreCall.pipelineSet (buildKey pfx e.key)
            (jsonStringify e.value) (normTtl e.ttl)) ++ [.pipelineExec]) ∧
    (∀ cnt tr, deleteByPattern pfx (scanChunks matching) (matching.length + 1) pat
        = some (cnt, tr) →
      (∀ cur p c, StoreCall.scan cur p c ∈ tr → p = buildKey pfx pat) ∧
      (∀ ks, StoreCall.del ks ∈ tr → ∀ k ∈ ks, ∃ lk, k = buildKey pfx lk)) := by
  refine ⟨?_, ?_, ?_, ?_, ?_, ?_⟩
  · rcases fail with _ | e <;> rcases hkv : kvcGet kv (buildKey pfx key) with _ | s <;>
      simp [cacheGet, hkv]
  · rcases fail with _ | e <;> simp [cacheSet]
  · rcases fail with _ | e <;> simp [cacheDelete]
  · by_cases hk : keys.isEmpty <;> rcases fail with _ | e <;> simp [cacheMget, hk]
  · by_cases hk : entries.isEmpty <;> rcases fail with _ | e <;> simp [cacheMset, hk]
  · intro cnt tr htr
    obtain ⟨tr0, htr0, _, _, hdel2, hscan⟩ := dbpLoop_chunks matching (buildKey pfx pat)
      (matching.length + 1) 0 "0" (by simp [cursorIdx]) (by omega) (by omega)
    have htr0' : deleteByPattern pfx (scanChunks matching) (matching.length + 1) pat
        = some (matching.length - 0, tr0) := htr0
    have heq := htr.symm.trans htr0'
    have htreq : tr = tr0 := by
      injection heq with h1
      exact congrArg Prod.snd h1
    subst htreq
    refine ⟨fun cur p c hmem => (hscan cur p c hmem).1, fun ks hmem k hk => ?_⟩
    exact hm k (hdel2 ks hmem k hk)

end AuthApi

namespace AuthApi

/-- Witness for C6 at concrete inputs (store holding one matching,
prefixed key). -/
theorem claim6_witness :
    (cacheGet "auth:" ⟨0, 0⟩ [] none "k").2.2 = [.get (buildKey "auth:" "k")] ∧
    (cacheSet "auth:" [] none "k" .null none).2.2
      = [.set (buildKey "auth:" "k") (jsonStringify .null) (normTtl none)] ∧
    (cacheDelete "auth:" [] none "k").2.2 = [.del [buildKey "auth:" "k"]] ∧
    (cacheMget "auth:" ⟨0, 0⟩ [] none ["a", "b"]).2.2
      = (if (["a", "b"] : List String).isEmpty then []
         else [.mget ((["a", "b"] : List String).map (buildKey "auth:"))]) ∧
    (cacheMset "auth:" [] none [⟨"e", .bool true, some 5⟩]).2.2
      = (if ([⟨"e", .bool true, some 5⟩] : List MSetEntry).isEmpty then []
         else ([⟨"e", .bool true, some 5⟩] : List MSetEntry).map
            (fun e => StoreCall.pipelineSet (buildKey "auth:" e.key)
              (jsonStringify e.value) (normTtl e.ttl)) ++ [.pipelineExec]) ∧
    (∀ cnt tr, deleteByPattern "auth:" (scanChunks ["auth:x"])
        ((["auth:x"] : List String).length + 1) "p*" = some (cnt, tr) →
      (∀ cur p c, StoreCall.scan cur p c ∈ tr → p = buildKey "auth:" "p*") ∧
      (∀ ks, StoreCall.del ks ∈ tr → ∀ k ∈ ks, ∃ lk, k = buildKey "auth:" lk)) :=
  claim6_prefixing_total "auth:" ⟨0, 0⟩ [] none "k" .null none ["a", "b"]
    [⟨"e", .bool true, some 5⟩] "p*" ["auth:x"]
    (by
      intro k hk
      simp at hk
      subst hk
      exact ⟨"x", rfl⟩)

/-- Claim C8 counterexample: over a store with zero matching keys the
loop still issues one SCAN, refuting the bound of at most
`⌈0 / 100⌉ = 0` SCAN calls. -/
theorem claim8_counterexample :
    deleteByPattern "auth:" (scanChunks []) 1 "k*"
      = some (0, [StoreCall.scan "0" "auth:k*" 100]) ∧
    ¬ scanCount [StoreCall.scan "0" "auth:k*" 100] ≤ ((0 : Nat) + 99) / 100 := by
  constructor
  · decide
  · decide

/-- Claim C8 as amended: over a store with N matching keys (served in
chunks of 100), `deleteByPattern` returns exactly N, issues exactly
`max 1 ⌈N/100⌉` SCAN calls (so `⌈N/100⌉` whenever N ≥ 1, and one SCAN
when N = 0), and issues no DEL for a batch with zero keys. -/
theorem claim8_deleteByPattern_count (pfx pat : String) (matching : List String) :
    ∃ tr, deleteByPattern pfx (scanChunks matching) (matching.length + 1) pat
        = some (matching.length, tr) ∧
      scanCount tr = max 1 ((matching.length + 99) / 100) ∧
      (∀ ks, StoreCall.del ks ∈ tr → ks ≠ []) := by
  obtain ⟨tr, htr, hsc, hdel, _, _⟩ := dbpLoop_chunks matching (buildKey pfx pat)
    (matching.length + 1) 0 "0" (by simp [cursorIdx]) (by omega) (by omega)
  rw [Nat.sub_zero] at htr hsc
  exact ⟨tr, htr, hsc, hdel⟩

end AuthApi
